import Mathlib

/-!
Verification of the flow-recap streaming transcription / live diarization
pipeline (Python sources under `src/python/`).

The Python code is shallowly embedded in Lean:
* machine floats are modelled as exact rationals (`ℚ`); the square root used
  by `np.linalg.norm` is kept abstract as a function parameter `sqrt : ℚ → ℚ`
  since only its zero-test and concrete perfect-square values matter to the
  verified properties;
* Python dicts (which preserve insertion order) are modelled as
  insertion-ordered association lists;
* fallible calls are modelled with `Except` / `Option`;
* mutation is modelled by explicit state passing.

Each definition carries a comment naming the Python function it embeds.
-/

/- ====================================================================
   Section 1: json_serialization_utils.py
   ==================================================================== -/

/-- Model of a Python float as seen by `_handle_special_float`:
either NaN, +Infinity, -Infinity, or an ordinary (finite) value. -/
inductive PyFloat where
  | nan : PyFloat
  | inf : PyFloat
  | neginf : PyFloat
  | finite : ℚ → PyFloat
deriving DecidableEq, Repr

/-- Value of `sys.float_info.max` for IEEE-754 binary64:
(2 - 2⁻⁵²) · 2¹⁰²³ = 2¹⁰²⁴ - 2⁹⁷¹. -/
def floatInfoMax : ℚ := 2 ^ 1024 - 2 ^ 971

/-- Embeds `json_serialization_utils._handle_special_float` (lines 51-87):
`if math.isnan(value): return None`;
`elif math.isinf(value): return sys.float_info.max if value > 0 else -sys.float_info.max`;
`return value`.  `None` is modelled as `Option.none`. -/
def handle_special_float : PyFloat → Option PyFloat
  | .nan => none
  | .inf => some (.finite floatInfoMax)
  | .neginf => some (.finite (-floatInfoMax))
  | .finite q => some (.finite q)

/- ====================================================================
   Section 2: cosine similarity
   (OnlineSpeakerClustering._cosine_similarity, live_diarize.py 479-486;
    CoreDiarizationEngine._cosine_similarity, core_diarization_engine.py
    510-516 — the two bodies are identical)
   ==================================================================== -/

/-- Dot product `np.dot(a, b)` of two vectors (equal length in all uses). -/
def dotProd (a b : List ℚ) : ℚ := (List.zipWith (· * ·) a b).sum

/-- Result of the cosine-similarity computation, instrumented with a ghost
flag recording whether the division branch was executed (the Python code
either returns `0.0` from the guard or performs the division). -/
structure CosResult where
  value : ℚ
  divisionExecuted : Bool
deriving DecidableEq, Repr

/-- Embeds `_cosine_similarity`:
`norm_a = np.linalg.norm(a); norm_b = np.linalg.norm(b);`
`if norm_a == 0 or norm_b == 0: return 0.0;`
`return float(np.dot(a, b) / (norm_a * norm_b))`.
The square root inside `np.linalg.norm` is the abstract parameter `sqrt`,
applied to the exact sum of squares. -/
def cosine_similarity (sqrt : ℚ → ℚ) (a b : List ℚ) : CosResult :=
  let norm_a := sqrt (dotProd a a)
  let norm_b := sqrt (dotProd b b)
  if norm_a = 0 ∨ norm_b = 0 then ⟨0, false⟩
  else ⟨dotProd a b / (norm_a * norm_b), true⟩

/- ====================================================================
   Section 3: speaker profiles and centroid updates
   (CoreDiarizationEngine._update_centroid, core_diarization_engine.py
    712-759; mirrors OnlineSpeakerClustering._update_centroid,
    live_diarize.py 610-663, which additionally tracks a variance field
    that feeds no claimed invariant)
   ==================================================================== -/

/-- Constant `self._max_centroid_history = 50` (core engine `__init__`);
also `max_centroid_history: int = 50` in live_diarize. -/
def max_centroid_history : ℕ := 50

/-- Constant `self._min_profile_embeddings = 3`. -/
def min_profile_embeddings : ℕ := 3

/-- Constant `self._centroid_decay_factor = 0.9`. -/
def centroid_decay_factor : ℚ := 0.9

/-- Scalar multiplication of a vector, `w * emb` in numpy. -/
def vecScale (w : ℚ) (v : List ℚ) : List ℚ := v.map (fun x => w * x)

/-- Componentwise vector addition, `acc += v` in numpy (all vectors in a
history share one embedding dimension). -/
def vecAdd (a b : List ℚ) : List ℚ := List.zipWith (· + ·) a b

/-- Exponential-decay weights of `_update_centroid`:
`weights = [d^(n-1), d^(n-2), ..., d^1, d^0]`, most recent last. -/
def decay_weights (n : ℕ) : List ℚ :=
  (List.range n).map (fun i => centroid_decay_factor ^ (n - 1 - i))

/-- Embeds the weighted-centroid computation of `_update_centroid`:
`weights = weights / weights.sum()`, then
`weighted_centroid = np.zeros_like(embedding)` accumulated with
`weighted_centroid += weights[i] * emb` over the history. -/
def weighted_centroid (dim : ℕ) (history : List (List ℚ)) : List ℚ :=
  let weights := decay_weights history.length
  let normalized := weights.map (fun w => w / weights.sum)
  (List.zipWith vecScale normalized history).foldl
    (fun acc v => vecAdd acc v) (List.replicate dim 0)

/-- Modelled from the spec: the centroid as stated by the specification,
"the normalized exponential-decay weighted mean of the current history
(decay 0.9, most recent embedding weight 1)", written as the decayed
weighted sum divided by the total weight.  Compared against the
source-derived `weighted_centroid` in the C4 theorem. -/
def spec_weighted_mean (dim : ℕ) (history : List (List ℚ)) : List ℚ :=
  let weights := decay_weights history.length
  vecScale weights.sum⁻¹
    ((List.zipWith vecScale weights history).foldl
      (fun acc v => vecAdd acc v) (List.replicate dim 0))

/-- Joint model of the per-speaker entries of the engine dicts
`_speaker_centroids`, `_speaker_counts`, `_speaker_embedding_history`,
`_speaker_profile_stable`. -/
structure Profile where
  sid : String
  centroid : List ℚ
  count : ℕ
  history : List (List ℚ)
  stable : Bool
deriving DecidableEq

/-- Profile creation as performed inline in `_find_or_create_speaker`:
`centroids[id] = emb.copy(); counts[id] = 1; history[id] = [emb]; stable[id] = False`. -/
def create_profile (sid : String) (embedding : List ℚ) : Profile :=
  ⟨sid, embedding, 1, [embedding], false⟩

/-- History trimming step of `_update_centroid`:
`if len(history) > max: history = history[-max:]`. -/
def trimHistory (hist : List (List ℚ)) : List (List ℚ) :=
  if hist.length > max_centroid_history then
    hist.drop (hist.length - max_centroid_history)
  else hist

/-- Embeds `CoreDiarizationEngine._update_centroid` (lines 712-759) on an
existing profile: append to history, trim with `history[-max:]` when the
limit is exceeded, recompute the centroid (`n == 1` keeps the raw
embedding), set `counts[id] = n`, and set the stable flag once
`n >= min_profile_embeddings` (`stable = stable or n >= 3`). -/
def update_centroid (p : Profile) (embedding : List ℚ) : Profile :=
  let hist := trimHistory (p.history ++ [embedding])
  { p with
    history := hist
    centroid := if hist.length = 1 then embedding
                else weighted_centroid embedding.length hist
    count := hist.length
    stable := p.stable || decide (min_profile_embeddings ≤ hist.length) }

/- ====================================================================
   Section 4: the core diarization engine state
   (CoreDiarizationEngine.__init__ 259-374, _calibrate_thresholds
    518-579, _find_or_create_speaker 582-710, reset 1003-1015)
   ==================================================================== -/

/-- Constant `self._reidentification_threshold = 0.85`, modelled as a state
field because the claims assert it is never changed. -/
def reidentification_threshold_value : ℚ := 0.85

/-- Constant `self._minimum_match_threshold = 0.35`. -/
def minimum_match_threshold : ℚ := 0.35

/-- Constant `self._definite_new_speaker_threshold = 0.30`. -/
def definite_new_speaker_threshold : ℚ := 0.30

/-- Constant `self._new_speaker_threshold = 0.40`. -/
def new_speaker_threshold : ℚ := 0.40

/-- Constant `self._calibration_segments = 8` (`CALIBRATION_SEGMENTS` in
live_diarize). -/
def calibration_segments : ℕ := 8

/-- Constant `self._processed_audio_min_similarity = 0.55`. -/
def processed_audio_min_similarity : ℚ := 0.55

/-- Constant `self._processed_audio_threshold_boost = 0.25`. -/
def processed_audio_threshold_boost : ℚ := 0.25

/-- A diarization speaker segment (dict with `speaker`, `start`, `end`,
`confidence`); `end` is a Lean keyword, so the field is named `stop`. -/
structure SpeakerSeg where
  speaker : String
  start : ℚ
  stop : ℚ
  confidence : ℚ
deriving DecidableEq

/-- State of `CoreDiarizationEngine`: the fields written by the clustering,
calibration and reset paths.  `profiles` models the four per-speaker dicts
(insertion-ordered, as Python dicts are). -/
structure Engine where
  similarity_threshold : ℚ
  reidentification_threshold : ℚ
  max_speakers : ℕ
  profiles : List Profile
  next_speaker_id : ℕ
  current_speaker : Option String
  audio_buffer : List ℚ
  processed_samples : ℕ
  all_segments : List SpeakerSeg
  calibration_similarities : List ℚ
  is_calibrated : Bool
  is_processed_audio : Bool
  effective_similarity_threshold : ℚ
  effective_definite_new_threshold : ℚ
  effective_new_speaker_threshold : ℚ
  effective_minimum_match_threshold : ℚ
deriving DecidableEq

/-- Embeds `CoreDiarizationEngine.__init__` (state fields only):
`max_speakers` is clamped with `max(2, min(max_speakers, 5))`, effective
thresholds start at their base values, calibration state starts empty. -/
def Engine.init (similarity_threshold : ℚ) (max_speakers : ℕ) : Engine where
  similarity_threshold := similarity_threshold
  reidentification_threshold := reidentification_threshold_value
  max_speakers := max 2 (min max_speakers 5)
  profiles := []
  next_speaker_id := 0
  current_speaker := none
  audio_buffer := []
  processed_samples := 0
  all_segments := []
  calibration_similarities := []
  is_calibrated := false
  is_processed_audio := false
  effective_similarity_threshold := similarity_threshold
  effective_definite_new_threshold := definite_new_speaker_threshold
  effective_new_speaker_threshold := new_speaker_threshold
  effective_minimum_match_threshold := minimum_match_threshold

/-- Python `min(list)` over a nonempty list (the only use site passes a list
of length `calibration_segments`). -/
def listMin : List ℚ → ℚ
  | [] => 0
  | h :: t => t.foldl min h

/-- Embeds `CoreDiarizationEngine._calibrate_thresholds` (lines 518-579):
return early once calibrated; append the similarity; wait for
`calibration_segments` samples; then either boost the four effective
thresholds by the fixed boost (processed audio, `min >= 0.55`) or keep the
defaults, and mark the engine calibrated in both branches. -/
def calibrate_thresholds (st : Engine) (similarity : ℚ) : Engine :=
  if st.is_calibrated then st
  else
    let sims := st.calibration_similarities ++ [similarity]
    if sims.length < calibration_segments then
      { st with calibration_similarities := sims }
    else if listMin sims ≥ processed_audio_min_similarity then
      { st with
        calibration_similarities := sims
        is_processed_audio := true
        effective_similarity_threshold :=
          st.similarity_threshold + processed_audio_threshold_boost
        effective_definite_new_threshold :=
          definite_new_speaker_threshold + processed_audio_threshold_boost
        effective_new_speaker_threshold :=
          new_speaker_threshold + processed_audio_threshold_boost
        effective_minimum_match_threshold :=
          minimum_match_threshold + processed_audio_threshold_boost
        is_calibrated := true }
    else
      { st with calibration_similarities := sims, is_calibrated := true }

/-- One iteration of the closest-speaker loop of `_find_or_create_speaker`:
`if similarity > best_similarity: best_similarity, best_speaker = similarity, speaker_id`. -/
def closest_step (sqrt : ℚ → ℚ) (embedding : List ℚ)
    (best : Option String × ℚ) (p : Profile) : Option String × ℚ :=
  if (cosine_similarity sqrt embedding p.centroid).value > best.2 then
    (some p.sid, (cosine_similarity sqrt embedding p.centroid).value)
  else best

/-- Embeds the closest-speaker loop at the top of
`_find_or_create_speaker`: start from `(None, 0.0)` and keep the first
profile realizing each strict improvement. -/
def find_closest (sqrt : ℚ → ℚ) (profiles : List Profile) (embedding : List ℚ) :
    Option String × ℚ :=
  profiles.foldl (closest_step sqrt embedding) (none, 0)

/-- Embeds the calibration hook inside `_find_or_create_speaker`:
`if not self._is_calibrated and best_similarity > 0:
self._calibrate_thresholds(best_similarity)`. -/
def observe_similarity (st : Engine) (best_similarity : ℚ) : Engine :=
  if st.is_calibrated = false ∧ 0 < best_similarity then
    calibrate_thresholds st best_similarity
  else st

/-- Update the profile with the given speaker id in place
(`self._update_centroid(speaker_id, embedding)` on the dicts). -/
def update_profile_in (profiles : List Profile) (sid : String)
    (embedding : List ℚ) : List Profile :=
  profiles.map (fun p => if p.sid = sid then update_centroid p embedding else p)

/-- New-speaker creation inline in `_find_or_create_speaker`:
`speaker_id = f"SPEAKER_{next}"; next += 1;` fresh profile; confidence 1.0. -/
def create_new_speaker (st : Engine) (embedding : List ℚ) :
    Engine × String × ℚ :=
  let sid := "SPEAKER_" ++ toString st.next_speaker_id
  ({ st with profiles := st.profiles ++ [create_profile sid embedding],
             next_speaker_id := st.next_speaker_id + 1 }, sid, 1)

/-- Embeds `CoreDiarizationEngine._find_or_create_speaker` (lines 582-710):
closest-profile search, calibration hook, then the decision tree —
re-identification match, effective-threshold match, the three cold-start
branches guarded by `len(profiles) < max_speakers`, and the forced
assignment when the speaker limit is reached
(`best_similarity if best_similarity > 0 else 0.5`). -/
def find_or_create_speaker (sqrt : ℚ → ℚ) (st0 : Engine) (embedding : List ℚ) :
    Engine × String × ℚ :=
  let best := find_closest sqrt st0.profiles embedding
  let best_speaker := best.1
  let best_similarity := best.2
  let st := observe_similarity st0 best_similarity
  if best_similarity ≥ st.reidentification_threshold ∧ best_speaker.isSome = true then
    ({ st with profiles := update_profile_in st.profiles (best_speaker.getD "") embedding },
      best_speaker.getD "", best_similarity)
  else if best_speaker.isSome = true ∧ best_similarity ≥ st.effective_similarity_threshold then
    ({ st with profiles := update_profile_in st.profiles (best_speaker.getD "") embedding },
      best_speaker.getD "", best_similarity)
  else if st.profiles.length < st.max_speakers then
    let has_unstable := st.profiles.any (fun p => !p.stable)
    if best_similarity < st.effective_definite_new_threshold then
      create_new_speaker st embedding
    else if best_similarity < st.effective_new_speaker_threshold ∧ has_unstable = false then
      create_new_speaker st embedding
    else if has_unstable = true ∧ best_speaker.isSome = true ∧
        best_similarity ≥ st.effective_minimum_match_threshold then
      ({ st with profiles := update_profile_in st.profiles (best_speaker.getD "") embedding },
        best_speaker.getD "", best_similarity)
    else
      create_new_speaker st embedding
  else
    let sid := match best_speaker with
      | some s => s
      | none => "SPEAKER_" ++ toString ((st.next_speaker_id : ℤ) - 1)
    ({ st with profiles := if best_speaker.isSome = true then
          update_profile_in st.profiles sid embedding else st.profiles },
      sid, if 0 < best_similarity then best_similarity else 0.5)

/-- Embeds `CoreDiarizationEngine.reset` (lines 1003-1015): clears the four
speaker dicts, the next speaker id, the current speaker, the audio buffer,
the processed-sample counter and the segment list — and nothing else. -/
def Engine.reset (st : Engine) : Engine :=
  { st with profiles := [], next_speaker_id := 0, current_speaker := none,
            audio_buffer := [], processed_samples := 0, all_segments := [] }

/-- Calibration-relevant view of an engine state, used to state which fields
the calibrator owns. -/
structure CalibView where
  sims : List ℚ
  calibrated : Bool
  processed : Bool
  eff_sim : ℚ
  eff_def : ℚ
  eff_new : ℚ
  eff_min : ℚ
deriving DecidableEq

/-- Projection of the calibrator-owned fields. -/
def Engine.calib (st : Engine) : CalibView :=
  ⟨st.calibration_similarities, st.is_calibrated, st.is_processed_audio,
   st.effective_similarity_threshold, st.effective_definite_new_threshold,
   st.effective_new_speaker_threshold, st.effective_minimum_match_threshold⟩

/-- Calibration invariant of a session whose base similarity threshold is
`thr` and whose sequence of observed best similarities is `ss`: before
calibration the collected samples are exactly the positive observations (in
order, fewer than 8 of them) and all four effective thresholds sit at their
base values; once calibrated, exactly 8 samples were collected and the four
effective thresholds are either all boosted by exactly 0.25 (sample minimum
at least 0.55) or all at their base values; the re-identification threshold
is 0.85 throughout. -/
def CalibSpec (thr : ℚ) (ss : List ℚ) (st : Engine) : Prop :=
  st.similarity_threshold = thr ∧
  st.reidentification_threshold = reidentification_threshold_value ∧
  (st.is_calibrated = false →
    st.calibration_similarities = ss.filter (fun s => decide (0 < s)) ∧
    st.calibration_similarities.length < calibration_segments ∧
    st.is_processed_audio = false ∧
    st.effective_similarity_threshold = thr ∧
    st.effective_definite_new_threshold = definite_new_speaker_threshold ∧
    st.effective_new_speaker_threshold = new_speaker_threshold ∧
    st.effective_minimum_match_threshold = minimum_match_threshold) ∧
  (st.is_calibrated = true →
    st.calibration_similarities.length = calibration_segments ∧
    (listMin st.calibration_similarities ≥ processed_audio_min_similarity →
      st.is_processed_audio = true ∧
      st.effective_similarity_threshold = thr + processed_audio_threshold_boost ∧
      st.effective_definite_new_threshold =
        definite_new_speaker_threshold + processed_audio_threshold_boost ∧
      st.effective_new_speaker_threshold =
        new_speaker_threshold + processed_audio_threshold_boost ∧
      st.effective_minimum_match_threshold =
        minimum_match_threshold + processed_audio_threshold_boost) ∧
    (listMin st.calibration_similarities < processed_audio_min_similarity →
      st.is_processed_audio = false ∧
      st.effective_similarity_threshold = thr ∧
      st.effective_definite_new_threshold = definite_new_speaker_threshold ∧
      st.effective_new_speaker_threshold = new_speaker_threshold ∧
      st.effective_minimum_match_threshold = minimum_match_threshold))

/-- Abstract square root used on the concrete C3 inputs: exact on the
perfect squares 441 and 1 that actually occur, irrelevant elsewhere. -/
def sqrtEx : ℚ → ℚ := fun q => if q = 441 then 21 else if q = 1 then 1 else q

/-- Concrete engine state at the speaker limit: the state reached from
`Engine.init 0.30 2` after two definitely-new embeddings `[1,0,0]` and
`[0,1,0]` created `SPEAKER_0` and `SPEAKER_1` (both with zero best
similarity, so nothing was fed to the calibrator). -/
def engineC3 : Engine where
  similarity_threshold := 0.30
  reidentification_threshold := reidentification_threshold_value
  max_speakers := 2
  profiles := [create_profile "SPEAKER_0" [1, 0, 0],
               create_profile "SPEAKER_1" [0, 1, 0]]
  next_speaker_id := 2
  current_speaker := none
  audio_buffer := []
  processed_samples := 0
  all_segments := []
  calibration_similarities := []
  is_calibrated := false
  is_processed_audio := false
  effective_similarity_threshold := 0.30
  effective_definite_new_threshold := definite_new_speaker_threshold
  effective_new_speaker_threshold := new_speaker_threshold
  effective_minimum_match_threshold := minimum_match_threshold

/-- Concrete calibrated engine: a fresh session that observed eight best
similarities of 0.6, which completes calibration in the processed-audio
branch and boosts the effective thresholds. -/
def calibratedEngine : Engine :=
  List.foldl observe_similarity (Engine.init 0.30 5) (List.replicate 8 0.6)

/- ====================================================================
   Section 5: speaker-to-transcript alignment
   (LiveDiarizer.assign_speaker_to_transcript, live_diarize.py 1121-1196)
   ==================================================================== -/

/-- Overlap of the transcript interval `[a, b]` with one speaker segment:
`overlap = max(0, min(b, seg.end) - max(a, seg.start))`. -/
def overlap_of (a b : ℚ) (seg : SpeakerSeg) : ℚ :=
  max 0 (min b seg.stop - max a seg.start)

/-- Accumulation into `speaker_overlaps` (a `defaultdict(float)` with
insertion-ordered keys): add `v` to the first entry for `sp`, or append a
fresh entry. -/
def bumpAssoc : List (String × ℚ) → String → ℚ → List (String × ℚ)
  | [], sp, v => [(sp, v)]
  | (k, x) :: t, sp, v =>
    if k = sp then (k, x + v) :: t else (k, x) :: bumpAssoc t sp v

/-- Embeds the overlap-accumulation loop of `assign_speaker_to_transcript`:
`if overlap > 0: speaker_overlaps[seg["speaker"]] += overlap`. -/
def speaker_overlaps (a b : ℚ) (segs : List SpeakerSeg) : List (String × ℚ) :=
  segs.foldl (fun acc seg =>
    if 0 < overlap_of a b seg then bumpAssoc acc seg.speaker (overlap_of a b seg)
    else acc) []

/-- Python `max(items, key=lambda x: x[1])`: the first entry whose value is
never strictly exceeded later. -/
def max_by_overlap : List (String × ℚ) → Option (String × ℚ)
  | [] => none
  | h :: t => some (t.foldl (fun best x => if best.2 < x.2 then x else best) h)

/-- Embeds the local `segment_distance` helper: the minimum of the four
distances between the transcript boundaries `a`, `b` and the speaker
segment boundaries. -/
def segment_distance (a b : ℚ) (seg : SpeakerSeg) : ℚ :=
  min (min |seg.start - a| |seg.stop - a|) (min |seg.start - b| |seg.stop - b|)

/-- Python `min(recent_segments, key=segment_distance)`: the first segment
whose distance is never strictly undercut later. -/
def nearest_segment (a b : ℚ) : List SpeakerSeg → Option SpeakerSeg
  | [] => none
  | h :: t => some (t.foldl (fun best x =>
      if segment_distance a b x < segment_distance a b best then x else best) h)

/-- Embeds `LiveDiarizer.assign_speaker_to_transcript` (lines 1121-1196):
empty list short-circuit, weighted-overlap match with confidence
`min(total / (b - a), 1.0)` (0.0 when the duration is not positive),
nearest-boundary fallback within 3 seconds with confidence
`seg.confidence * (1 - distance/3 * 0.5)`, else `(None, 0.0)`. -/
def assign_speaker_to_transcript (a b : ℚ) (segs : List SpeakerSeg) :
    Option String × ℚ :=
  if segs = [] then (none, 0)
  else
    let ovs := speaker_overlaps a b segs
    if ovs = [] then
      match nearest_segment a b segs with
      | none => (none, 0)
      | some nearest =>
        if segment_distance a b nearest ≤ 3 then
          (some nearest.speaker,
           nearest.confidence * (1 - segment_distance a b nearest / 3 * 0.5))
        else (none, 0)
    else
      match max_by_overlap ovs with
      | none => (none, 0)
      | some best =>
        (some best.1, min (if 0 < b - a then best.2 / (b - a) else 0) 1)

/-- Lookup in an association list with default 0 (the `defaultdict` read). -/
def assocVal : List (String × ℚ) → String → ℚ
  | [], _ => 0
  | (k, x) :: t, sp => if k = sp then x else assocVal t sp

/-- Keys of an association list, in order. -/
def assocKeys (l : List (String × ℚ)) : List String := l.map Prod.fst

/-- Total accumulated overlap of one speaker over a segment list (each
segment of that speaker contributes its — always nonnegative — overlap). -/
def total_overlap (a b : ℚ) (segs : List SpeakerSeg) (sp : String) : ℚ :=
  ((segs.filter (fun seg => decide (seg.speaker = sp))).map (overlap_of a b)).sum

/-- Invariant of the overlap-accumulation fold: the association list holds,
per speaker, exactly the total overlap over the processed prefix; its keys
are distinct; every stored value is positive; and it is empty only if no
processed segment had positive overlap. -/
def OverlapInv (a b : ℚ) (pre : List SpeakerSeg)
    (acc : List (String × ℚ)) : Prop :=
  (assocKeys acc).Nodup ∧
  (∀ sp : String, assocVal acc sp = total_overlap a b pre sp) ∧
  (∀ p ∈ acc, 0 < p.2) ∧
  (acc = [] → ∀ seg ∈ pre, ¬ 0 < overlap_of a b seg)

/- ====================================================================
   Section 6: diarization health monitoring
   (StreamingTranscriber._record_diarization_failure 1280-1311,
    _record_diarization_success 1313-1329, state fields from __init__)
   ==================================================================== -/

/-- Health-monitoring state fields of `StreamingTranscriber`. -/
structure HealthState where
  consecutive_failures : ℕ
  total_failures : ℕ
  total_segments : ℕ
  warning_emitted : Bool
deriving DecidableEq

/-- Initial health state from `__init__`: all counters 0, no warning. -/
def HealthState.init : HealthState := ⟨0, 0, 0, false⟩

/-- A diarization operation either fails or succeeds. -/
inductive HealthEvent where
  | failure : HealthEvent
  | success : HealthEvent
deriving DecidableEq

/-- The two health records the monitor can emit to the UI. -/
inductive HealthMsg where
  | warning : HealthMsg
  | recovery : HealthMsg
deriving DecidableEq

/-- Constant `self._diarization_failure_threshold = 3`. -/
def diarization_failure_threshold : ℕ := 3

/-- Embeds `_record_diarization_failure`: bump both failure counters, then
emit a `diarization_health_warning` (setting the outstanding flag) when the
consecutive count reaches the threshold and no warning is outstanding. -/
def record_diarization_failure (st : HealthState) : HealthState × List HealthMsg :=
  let st1 := { st with consecutive_failures := st.consecutive_failures + 1,
                       total_failures := st.total_failures + 1 }
  if st1.consecutive_failures ≥ diarization_failure_threshold ∧
      st1.warning_emitted = false then
    ({ st1 with warning_emitted := true }, [HealthMsg.warning])
  else (st1, [])

/-- Embeds `_record_diarization_success`: zero the consecutive-failure
counter, bump the total segment counter, and — when a warning is
outstanding and the session-total segment count exceeds 5 — emit a
`diarization_health_recovery` and clear the flag. -/
def record_diarization_success (st : HealthState) : HealthState × List HealthMsg :=
  let st1 := { st with consecutive_failures := 0,
                       total_segments := st.total_segments + 1 }
  if st1.warning_emitted = true ∧ st1.consecutive_failures = 0 ∧
      st1.total_segments > 5 then
    ({ st1 with warning_emitted := false }, [HealthMsg.recovery])
  else (st1, [])

/-- Run of the health monitor over an event sequence, collecting the
emitted records in order. -/
def health_run (st : HealthState) : List HealthEvent → HealthState × List HealthMsg
  | [] => (st, [])
  | e :: rest =>
    let step := match e with
      | .failure => record_diarization_failure st
      | .success => record_diarization_success st
    let r := health_run step.1 rest
    (r.1, step.2 ++ r.2)

/-- Reachability invariant of the health monitor: while no warning is
outstanding, the consecutive-failure count stays below the threshold. -/
def HealthInv (st : HealthState) : Prop :=
  st.warning_emitted = false →
    st.consecutive_failures + 1 ≤ diarization_failure_threshold

/- ====================================================================
   Section 7: audio buffering of StreamingTranscriber
   (__init__ 604-612, add_audio 1548-1550, process_buffer 1552-1578,
    process_remaining 1580-1587)
   ==================================================================== -/

/-- Truncation toward zero of a rational — Python `int(x)` on a float. -/
def ratTrunc (q : ℚ) : ℤ := Int.tdiv q.num q.den

/-- Buffering-relevant state of `StreamingTranscriber`.  Bytes are natural
numbers; the buffer is the byte list. -/
structure Transcriber where
  sample_rate : ℕ
  bytes_per_frame : ℕ
  chunk_duration : ℚ
  chunk_bytes : ℕ
  audio_buffer : List ℕ
deriving DecidableEq

/-- Embeds the buffer parameters of `__init__`:
`bytes_per_sample = bit_depth // 8`,
`bytes_per_frame = bytes_per_sample * channels`,
`chunk_bytes = int(chunk_duration * sample_rate * bytes_per_frame)`
(durations are nonnegative, so the truncated value is cast back to ℕ). -/
def Transcriber.init (sample_rate channels bit_depth : ℕ)
    (chunk_duration : ℚ) : Transcriber :=
  let bytes_per_frame := (bit_depth / 8) * channels
  { sample_rate := sample_rate
    bytes_per_frame := bytes_per_frame
    chunk_duration := chunk_duration
    chunk_bytes :=
      (ratTrunc (chunk_duration * sample_rate * bytes_per_frame)).toNat
    audio_buffer := [] }

/-- Embeds `add_audio`: `self.audio_buffer.extend(audio_data)`. -/
def add_audio (t : Transcriber) (data : List ℕ) : Transcriber :=
  { t with audio_buffer := t.audio_buffer ++ data }

/-- Embeds `process_buffer`: return nothing while the buffer holds fewer
than `chunk_bytes` bytes; otherwise pop exactly the first `chunk_bytes`
bytes (no overlap kept) and hand them to transcription. -/
def process_buffer (t : Transcriber) : Transcriber × Option (List ℕ) :=
  if t.audio_buffer.length < t.chunk_bytes then (t, none)
  else ({ t with audio_buffer := t.audio_buffer.drop t.chunk_bytes },
        some (t.audio_buffer.take t.chunk_bytes))

/-- Embeds `process_remaining`: at end of stream, transcribe the whole
buffered tail iff it holds at least one second of audio
(`bytes_per_frame * sample_rate` bytes), clearing the buffer; otherwise
return nothing. -/
def process_remaining (t : Transcriber) : Transcriber × Option (List ℕ) :=
  if t.audio_buffer.length < t.bytes_per_frame * t.sample_rate then (t, none)
  else ({ t with audio_buffer := [] }, some t.audio_buffer)

/-- A streaming step: an incoming stdin read or a drain attempt. -/
inductive TOp where
  | add : List ℕ → TOp
  | drain : TOp
deriving DecidableEq

/-- Run of the buffering loop, collecting the popped chunks in order. -/
def run_ops (t : Transcriber) : List TOp → Transcriber × List (List ℕ)
  | [] => (t, [])
  | .add data :: rest => run_ops (add_audio t data) rest
  | .drain :: rest =>
    let s := process_buffer t
    let r := run_ops s.1 rest
    (r.1, (match s.2 with | none => [] | some c => [c]) ++ r.2)

/-- The bytes fed to the buffer by an operation sequence, in order. -/
def ops_input : List TOp → List ℕ
  | [] => []
  | .add data :: rest => data ++ ops_input rest
  | .drain :: rest => ops_input rest

/- ====================================================================
   Section 8: fault-tolerant speaker assignment for transcript segments
   (StreamingTranscriber._generate_fallback_speaker_id 1262-1278,
    _get_fallback_speaker_for_segment 1372-1394,
    _process_diarization STEP 4, 1516-1546)
   ==================================================================== -/

/-- A transcript segment as produced by transcription. -/
structure TranscriptSeg where
  start : ℚ
  stop : ℚ
  text : String
deriving DecidableEq

/-- A transcript segment after STEP 4: the speaker keys the loop writes
into the segment dict (`speaker_fallback` is only written on the fallback
path; absence is modelled as `false`). -/
structure AnnotatedSeg where
  seg : TranscriptSeg
  speaker : String
  speaker_confidence : ℚ
  speaker_fallback : Bool
deriving DecidableEq

/-- Embeds `_generate_fallback_speaker_id`:
`f"speaker_unknown_{int(timestamp * 1000)}"`. -/
def generate_fallback_speaker_id (timestamp : ℚ) : String :=
  "speaker_unknown_" ++ toString (ratTrunc (timestamp * 1000))

/-- Python truthiness of an `Optional[str]`: `None` and `""` are falsy. -/
def strTruthy : Option String → Bool
  | none => false
  | some s => !(s == "")

/-- Embeds `_get_fallback_speaker_for_segment`: prefer the cached
last-known speaker with confidence `max(0.3, last_confidence * 0.5)`, else
a synthetic timestamp id with confidence 0. -/
def get_fallback_speaker_for_segment (last_known : Option String)
    (last_conf : ℚ) (seg : TranscriptSeg) : String × ℚ :=
  if strTruthy last_known = true then
    (last_known.getD "", max 0.3 (last_conf * 0.5))
  else
    (generate_fallback_speaker_id seg.start, 0)

/-- Embeds STEP 4 of `_process_diarization` (lines 1516-1546): for each
transcript segment, attempt `diarizer.assign_speaker_to_transcript` only
when diarization succeeded and recent speaker segments exist; the call is
wrapped in try/except, modelled by the oracle returning `Except` (`error`
is a raised exception); a falsy speaker or any failure falls back to
`_get_fallback_speaker_for_segment` with `speaker_fallback = True`.  Every
input segment is emitted. -/
def annotate_segment
    (diarization_succeeded : Bool)
    (recent_speaker_segments : List SpeakerSeg)
    (last_known : Option String) (last_conf : ℚ)
    (assign : TranscriptSeg → Except Unit (Option String × ℚ))
    (seg : TranscriptSeg) : AnnotatedSeg :=
  let attempt : Option (String × ℚ) :=
    if diarization_succeeded = true ∧ recent_speaker_segments ≠ [] then
      match assign seg with
      | .ok (sp, c) => if strTruthy sp = true then some (sp.getD "", c) else none
      | .error _ => none
    else none
  match attempt with
  | some (sp, c) => ⟨seg, sp, c, false⟩
  | none =>
    let fb := get_fallback_speaker_for_segment last_known last_conf seg
    ⟨seg, fb.1, fb.2, true⟩

/-- The STEP 4 loop over all transcript segments. -/
def process_diarization_step4
    (diarization_succeeded : Bool)
    (recent_speaker_segments : List SpeakerSeg)
    (last_known : Option String) (last_conf : ℚ)
    (assign : TranscriptSeg → Except Unit (Option String × ℚ))
    (segments : List TranscriptSeg) : List AnnotatedSeg :=
  segments.map (annotate_segment diarization_succeeded recent_speaker_segments
    last_known last_conf assign)

/-- Per-segment guarantee of STEP 4 (the relation between an input segment
and its emitted annotation): the segment is preserved; a non-fallback
annotation carries a truthy speaker returned by the alignment oracle; a
fallback annotation carries the cached last-known speaker or the synthetic
timestamp id. -/
def Step4Rel (succ : Bool) (recents : List SpeakerSeg)
    (lks : Option String) (lconf : ℚ)
    (assign : TranscriptSeg → Except Unit (Option String × ℚ))
    (seg : TranscriptSeg) (o : AnnotatedSeg) : Prop :=
  o.seg = seg ∧
  (o.speaker_fallback = false →
    succ = true ∧ recents ≠ [] ∧
    ∃ c : ℚ, assign seg = .ok (some o.speaker, c) ∧
      o.speaker ≠ "" ∧ o.speaker_confidence = c) ∧
  (o.speaker_fallback = true →
    (strTruthy lks = true →
      o.speaker = lks.getD "" ∧
      o.speaker_confidence = max 0.3 (lconf * 0.5)) ∧
    (strTruthy lks = false →
      o.speaker = generate_fallback_speaker_id seg.start ∧
      o.speaker_confidence = 0))

/- ====================================================================
   THEOREMS
   ==================================================================== -/

/-- Scalar multiplication distributes over componentwise addition. -/
theorem vecScale_vecAdd (c : ℚ) : ∀ a b : List ℚ,
    vecScale c (vecAdd a b) = vecAdd (vecScale c a) (vecScale c b)
  | [], _ => by simp [vecScale, vecAdd]
  | _ :: _, [] => by simp [vecScale, vecAdd]
  | x :: xs, y :: ys => by
    simp only [vecAdd, vecScale, List.zipWith_cons_cons, List.map_cons, mul_add]
    exact congrArg _ (vecScale_vecAdd c xs ys)

/-- Composition of scalar multiplications. -/
theorem vecScale_vecScale (c d : ℚ) (v : List ℚ) :
    vecScale c (vecScale d v) = vecScale (c * d) v := by
  simp [vecScale, List.map_map, Function.comp_def, mul_assoc]

/-- Scaling the all-zero vector is the identity. -/
theorem vecScale_replicate_zero (c : ℚ) (n : ℕ) :
    vecScale c (List.replicate n 0) = List.replicate n 0 := by
  simp [vecScale, List.map_replicate]

/-- Adding the matching all-zero vector is the identity. -/
theorem vecAdd_replicate_zero : ∀ v : List ℚ,
    vecAdd (List.replicate v.length 0) v = v
  | [] => rfl
  | x :: xs => by
    simp only [List.length_cons, List.replicate_succ, vecAdd,
      List.zipWith_cons_cons, zero_add]
    exact congrArg _ (vecAdd_replicate_zero xs)

/-- A common scale factor commutes out of a sum fold. -/
theorem vecScale_foldl (c : ℚ) : ∀ (l : List (List ℚ)) (z : List ℚ),
    List.foldl (fun acc v => vecAdd acc v) (vecScale c z) (l.map (vecScale c)) =
      vecScale c (List.foldl (fun acc v => vecAdd acc v) z l)
  | [], _ => rfl
  | v :: vs, z => by
    simp only [List.map_cons, List.foldl_cons]
    rw [← vecScale_vecAdd, vecScale_foldl c vs (vecAdd z v)]

/-- Normalizing each weight before the weighted sum is the same as dividing
the weighted sum by the total weight. -/
theorem zipWith_scale_div (s : ℚ) : ∀ (ws : List ℚ) (hist : List (List ℚ)),
    List.zipWith vecScale (ws.map (fun w => w / s)) hist =
      (List.zipWith vecScale ws hist).map (vecScale s⁻¹)
  | [], _ => by simp
  | _ :: _, [] => by simp
  | w :: ws, h :: hs => by
    simp only [List.map_cons, List.zipWith_cons_cons]
    refine congrArg₂ _ ?_ (zipWith_scale_div s ws hs)
    rw [vecScale_vecScale, div_eq_mul_inv, mul_comm]

/-- The source's normalize-then-accumulate centroid equals the
specification's decayed weighted mean. -/
theorem weighted_centroid_eq_spec (dim : ℕ) (hist : List (List ℚ)) :
    weighted_centroid dim hist = spec_weighted_mean dim hist := by
  show (List.zipWith vecScale
      ((decay_weights hist.length).map
        (fun w => w / (decay_weights hist.length).sum)) hist).foldl
      (fun acc v => vecAdd acc v) (List.replicate dim 0) =
    vecScale (decay_weights hist.length).sum⁻¹
      ((List.zipWith vecScale (decay_weights hist.length) hist).foldl
        (fun acc v => vecAdd acc v) (List.replicate dim 0))
  rw [zipWith_scale_div,
    ← vecScale_replicate_zero (decay_weights hist.length).sum⁻¹ dim,
    vecScale_foldl, vecScale_replicate_zero]

/-- The decayed weighted mean of a one-element history is that element. -/
theorem spec_weighted_mean_single (e : List ℚ) :
    spec_weighted_mean e.length [e] = e := by
  have h1 : decay_weights 1 = [1] := by
    simp [decay_weights, List.range_succ]
  simp only [spec_weighted_mean, List.length_cons, List.length_nil, h1]
  simp only [List.sum_cons, List.sum_nil, add_zero, inv_one,
    List.zipWith_cons_cons, List.zipWith_nil_right, List.foldl_cons,
    List.foldl_nil]
  have hid : vecScale 1 e = e := by simp [vecScale]
  rw [hid, vecAdd_replicate_zero, hid]

/-- Unfolding of `update_centroid` into its trimmed history. -/
theorem update_centroid_def (p : Profile) (e : List ℚ) :
    update_centroid p e =
      ⟨p.sid,
       if (trimHistory (p.history ++ [e])).length = 1 then e
       else weighted_centroid e.length (trimHistory (p.history ++ [e])),
       (trimHistory (p.history ++ [e])).length,
       trimHistory (p.history ++ [e]),
       p.stable ||
         decide (min_profile_embeddings ≤ (trimHistory (p.history ++ [e])).length)⟩ := rfl

/-- Trimming caps the history length by the configured maximum. -/
theorem trimHistory_length_le (h : List (List ℚ)) :
    (trimHistory h).length ≤ max_centroid_history := by
  unfold trimHistory
  split_ifs with hl
  · rw [List.length_drop]; omega
  · omega

/-- A singleton trimmed history after an append is exactly the appended
element. -/
theorem trimHistory_eq_singleton (l : List (List ℚ)) (e : List ℚ)
    (h : (trimHistory (l ++ [e])).length = 1) : trimHistory (l ++ [e]) = [e] := by
  have hmax : max_centroid_history = 50 := rfl
  unfold trimHistory at h ⊢
  split_ifs at h ⊢ with hl
  · exfalso
    rw [List.length_drop] at h
    omega
  · have hlen : l.length = 0 := by
      rw [List.length_append, List.length_singleton] at h
      omega
    rw [List.eq_nil_of_length_eq_zero hlen, List.nil_append]

/-- C4 (amended): after every centroid update or profile creation, each
speaker profile satisfies: the history length is at most `H_max = 50`; the
`count` field equals the length of the (trimmed) history — the count is not
cumulative, so `count ≥ len(history)` holds only as this equality; the
stored centroid equals the normalized exponential-decay weighted mean of
the current history (decay 0.9, most recent embedding weight 1); and once
`is_stable` has been set (which happens as soon as the trimmed history
holds at least 3 embeddings) it is never cleared by an update. -/
theorem C4_profile_invariants (p : Profile) (e : List ℚ) :
    ((update_centroid p e).history.length ≤ max_centroid_history ∧
     (update_centroid p e).count = (update_centroid p e).history.length ∧
     (update_centroid p e).centroid =
       spec_weighted_mean e.length (update_centroid p e).history ∧
     (p.stable = true → (update_centroid p e).stable = true) ∧
     (min_profile_embeddings ≤ (update_centroid p e).history.length →
       (update_centroid p e).stable = true)) ∧
    (∀ sid : String,
      (create_profile sid e).history.length ≤ max_centroid_history ∧
      (create_profile sid e).count = (create_profile sid e).history.length ∧
      (create_profile sid e).centroid =
        spec_weighted_mean e.length (create_profile sid e).history ∧
      (create_profile sid e).stable = false) := by
  constructor
  · rw [update_centroid_def]
    refine ⟨trimHistory_length_le _, rfl, ?_, ?_, ?_⟩
    · by_cases h1 : (trimHistory (p.history ++ [e])).length = 1
      · rw [if_pos h1, trimHistory_eq_singleton _ _ h1]
        exact (spec_weighted_mean_single e).symm
      · rw [if_neg h1]
        exact weighted_centroid_eq_spec _ _
    · intro h
      rw [h, Bool.true_or]
    · intro h
      rw [decide_eq_true h, Bool.or_true]
  · intro sid
    refine ⟨?_, rfl, ?_, rfl⟩
    · show 1 ≤ max_centroid_history
      norm_num [max_centroid_history]
    · exact (spec_weighted_mean_single e).symm

/-- C4 witness: `C4_profile_invariants` applied at a concrete already-stable
profile and embedding, discharging the stability hypotheses. -/
theorem C4_profile_invariants_witness :
    (update_centroid ⟨"SPEAKER_0", [1], 3, [[1], [1], [1]], true⟩ [1]).stable = true ∧
    (min_profile_embeddings ≤
      (update_centroid ⟨"SPEAKER_0", [1], 3, [[1], [1], [1]], true⟩ [1]).history.length →
      (update_centroid ⟨"SPEAKER_0", [1], 3, [[1], [1], [1]], true⟩ [1]).stable = true) :=
  ⟨(C4_profile_invariants ⟨"SPEAKER_0", [1], 3, [[1], [1], [1]], true⟩ [1]).1.2.2.2.1 rfl,
   (C4_profile_invariants ⟨"SPEAKER_0", [1], 3, [[1], [1], [1]], true⟩ [1]).1.2.2.2.2⟩

set_option maxRecDepth 4000 in
/-- C4 counterexample: a profile that has absorbed 51 embeddings — one at
creation plus 50 updates — ends with `count = 50`, not the cumulative 51
the claim asserts (`count` is overwritten with the trimmed history length,
`self._speaker_counts[speaker_id] = n`, after the history is capped at 50). -/
theorem C4_count_not_cumulative :
    (List.foldl (fun p _ => update_centroid p [1])
        (create_profile "SPEAKER_0" [1]) (List.range 50)).count = 50 ∧
    ¬ (List.foldl (fun p _ => update_centroid p [1])
        (create_profile "SPEAKER_0" [1]) (List.range 50)).count = 51 := by
  constructor <;> decide

/-- C9: for every float value routed through the output serializer's
special-float handler, NaN maps to null (`none`), positive Infinity maps to
`sys.float_info.max`, negative Infinity maps to `-sys.float_info.max`, every
other float is returned unchanged, and consequently no NaN or Infinity value
ever appears in the handler's output. -/
theorem C9_special_float_handler :
    handle_special_float .nan = none ∧
    handle_special_float .inf = some (.finite floatInfoMax) ∧
    handle_special_float .neginf = some (.finite (-floatInfoMax)) ∧
    (∀ q : ℚ, handle_special_float (.finite q) = some (.finite q)) ∧
    (∀ v w : PyFloat, handle_special_float v = some w → ∃ q : ℚ, w = .finite q) := by
  refine ⟨rfl, rfl, rfl, fun q => rfl, fun v w h => ?_⟩
  cases v with
  | nan => simp [handle_special_float] at h
  | inf => exact ⟨floatInfoMax, by simpa [handle_special_float] using h.symm⟩
  | neginf => exact ⟨-floatInfoMax, by simpa [handle_special_float] using h.symm⟩
  | finite q => exact ⟨q, by simpa [handle_special_float] using h.symm⟩

/-- C9 witness: the quantified clauses of `C9_special_float_handler`
discharged at the concrete input `3.5`. -/
theorem C9_special_float_handler_witness :
    handle_special_float (.finite (7/2)) = some (.finite (7/2)) ∧
    ∃ q : ℚ, PyFloat.finite (7/2) = .finite q :=
  ⟨C9_special_float_handler.2.2.2.1 (7/2),
   C9_special_float_handler.2.2.2.2 (.finite (7/2)) (.finite (7/2))
     (C9_special_float_handler.2.2.2.1 (7/2))⟩

/-- C10: the cosine-similarity helper is total and guarded: whenever the norm
of `a` or the norm of `b` is zero it returns exactly `0.0` with the division
branch not executed; otherwise it returns `dot(a,b) / (norm(a) * norm(b))`
and the denominator of that division is nonzero — the division is never
executed with a zero denominator. -/
theorem C10_cosine_similarity_total (sqrt : ℚ → ℚ) (a b : List ℚ) :
    ((sqrt (dotProd a a) = 0 ∨ sqrt (dotProd b b) = 0) →
       cosine_similarity sqrt a b = ⟨0, false⟩) ∧
    (¬(sqrt (dotProd a a) = 0 ∨ sqrt (dotProd b b) = 0) →
       cosine_similarity sqrt a b =
         ⟨dotProd a b / (sqrt (dotProd a a) * sqrt (dotProd b b)), true⟩ ∧
       sqrt (dotProd a a) * sqrt (dotProd b b) ≠ 0) := by
  constructor
  · intro h
    simp only [cosine_similarity]
    rw [if_pos h]
  · intro h
    push_neg at h
    obtain ⟨ha, hb⟩ := h
    refine ⟨?_, mul_ne_zero ha hb⟩
    simp only [cosine_similarity]
    rw [if_neg (by push_neg; exact ⟨ha, hb⟩)]

/-- C10 witness: `C10_cosine_similarity_total` applied at the concrete
inputs `a = [0]`, `b = [3, 4]` (zero norm: guarded, no division) and
`a = b = [1]` with the identity as the abstract square root (division
executed with nonzero denominator). -/
theorem C10_cosine_similarity_total_witness :
    cosine_similarity (fun q => q) [0] [3, 4] = ⟨0, false⟩ ∧
    (cosine_similarity (fun q => q) [1] [1] = ⟨1 / (1 * 1), true⟩ ∧
      (1 : ℚ) * 1 ≠ 0) := by
  constructor
  · exact (C10_cosine_similarity_total (fun q => q) [0] [3, 4]).1
      (by norm_num [dotProd])
  · have h := (C10_cosine_similarity_total (fun q => q) [1] [1]).2
      (by norm_num [dotProd])
    simpa [dotProd] using h

/-- Once the engine is calibrated, the calibration hook is the identity. -/
theorem observe_calibrated (st : Engine) (s : ℚ) (h : st.is_calibrated = true) :
    observe_similarity st s = st := by
  unfold observe_similarity
  rw [if_neg]
  simp [h]

/-- Once the engine is calibrated, any further observation sequence leaves
the whole state unchanged. -/
theorem observe_foldl_calibrated (st : Engine) (ss : List ℚ)
    (h : st.is_calibrated = true) :
    List.foldl observe_similarity st ss = st := by
  induction ss with
  | nil => rfl
  | cons s rest ih =>
    rw [List.foldl_cons, observe_calibrated st s h]
    exact ih

/-- One observation step preserves the calibration invariant. -/
theorem calibSpec_step (thr : ℚ) (ss : List ℚ) (st : Engine) (s : ℚ)
    (h : CalibSpec thr ss st) :
    CalibSpec thr (ss ++ [s]) (observe_similarity st s) := by
  obtain ⟨hthr, hreid, huncal, hcal⟩ := h
  by_cases hc : st.is_calibrated = true
  · rw [observe_calibrated st s hc]
    refine ⟨hthr, hreid, ?_, hcal⟩
    intro hfalse
    rw [hc] at hfalse
    exact absurd hfalse (by simp)
  · have hc' : st.is_calibrated = false := by
      cases hb : st.is_calibrated
      · rfl
      · exact absurd hb hc
    obtain ⟨hsims, hlen, hproc, h1, h2, h3, h4⟩ := huncal hc'
    by_cases hs : 0 < s
    · have hobs : observe_similarity st s = calibrate_thresholds st s := by
        unfold observe_similarity
        rw [if_pos ⟨hc', hs⟩]
      rw [hobs]
      unfold calibrate_thresholds
      rw [if_neg (by rw [hc']; simp)]
      by_cases hl : (st.calibration_similarities ++ [s]).length < calibration_segments
      · rw [if_pos hl]
        refine ⟨hthr, hreid, ?_, ?_⟩
        · intro _
          refine ⟨?_, hl, hproc, h1, h2, h3, h4⟩
          show st.calibration_similarities ++ [s] = _
          rw [List.filter_append, hsims]
          simp [hs]
        · intro htrue
          rw [hc'] at htrue
          exact absurd htrue (by simp)
      · rw [if_neg hl]
        by_cases hmin : listMin (st.calibration_similarities ++ [s]) ≥
            processed_audio_min_similarity
        · rw [if_pos hmin]
          refine ⟨hthr, hreid, ?_, ?_⟩
          · intro hfalse
            exact absurd hfalse (by simp)
          · intro _
            refine ⟨?_, ?_, ?_⟩
            · have hc : (st.calibration_similarities ++ [s]).length =
                  st.calibration_similarities.length + 1 := by
                rw [List.length_append, List.length_singleton]
              show (st.calibration_similarities ++ [s]).length = _
              omega
            · intro _
              exact ⟨rfl, by rw [hthr], rfl, rfl, rfl⟩
            · intro hlt
              exact absurd hmin (not_le.mpr hlt)
        · rw [if_neg hmin]
          refine ⟨hthr, hreid, ?_, ?_⟩
          · intro hfalse
            exact absurd hfalse (by simp)
          · intro _
            refine ⟨?_, ?_, ?_⟩
            · have hc : (st.calibration_similarities ++ [s]).length =
                  st.calibration_similarities.length + 1 := by
                rw [List.length_append, List.length_singleton]
              show (st.calibration_similarities ++ [s]).length = _
              omega
            · intro hge
              exact absurd hge hmin
            · intro _
              exact ⟨hproc, h1, h2, h3, h4⟩
    · have hobs : observe_similarity st s = st := by
        unfold observe_similarity
        rw [if_neg (fun hcontra => hs hcontra.2)]
      rw [hobs]
      refine ⟨hthr, hreid, ?_, hcal⟩
      intro hf
      obtain ⟨hsims', hlen', hrest⟩ := huncal hf
      refine ⟨?_, hlen', hrest⟩
      rw [List.filter_append, hsims']
      simp [hs]

/-- Folding observations preserves the calibration invariant. -/
theorem calibSpec_fold (thr : ℚ) : ∀ (ss2 ss1 : List ℚ) (st : Engine),
    CalibSpec thr ss1 st →
    CalibSpec thr (ss1 ++ ss2) (List.foldl observe_similarity st ss2)
  | [], ss1, st, h => by simpa using h
  | s :: rest, ss1, st, h => by
    have hstep := calibSpec_step thr ss1 st s h
    have hrec := calibSpec_fold thr rest (ss1 ++ [s]) (observe_similarity st s) hstep
    simpa [List.append_assoc] using hrec

/-- A fresh engine satisfies the calibration invariant for the empty
observation sequence. -/
theorem calibSpec_init (thr : ℚ) (m : ℕ) : CalibSpec thr [] (Engine.init thr m) := by
  refine ⟨rfl, rfl, ?_, ?_⟩
  · intro _
    refine ⟨rfl, ?_, rfl, rfl, rfl, rfl, rfl⟩
    show ([] : List ℚ).length < calibration_segments
    norm_num [calibration_segments]
  · intro hfalse
    exact absurd hfalse (by simp [Engine.init])

/-- C2: across every session (every sequence `ss` of best similarities fed
to the calibration hook from a fresh engine), the calibrator runs at most
once: before calibration the collected samples are exactly the positive
observations and all four effective thresholds sit at their base values;
when the 8th sample accumulates, the four effective thresholds are each
increased by exactly 0.25 when the sample minimum is at least 0.55 and keep
their base values otherwise, while the re-identification threshold stays
0.85; after `is_calibrated` becomes true no observation changes the state
again.  The last clause ties the hook to `_find_or_create_speaker`: that
function changes the calibrator-owned fields exactly as the hook applied to
the best similarity does. -/
theorem C2_calibration_runs_once (thr : ℚ) (m : ℕ) (ss : List ℚ) :
    CalibSpec thr ss (List.foldl observe_similarity (Engine.init thr m) ss) ∧
    ((List.foldl observe_similarity (Engine.init thr m) ss).is_calibrated = true →
      ∀ ss2 : List ℚ,
        List.foldl observe_similarity
          (List.foldl observe_similarity (Engine.init thr m) ss) ss2 =
        List.foldl observe_similarity (Engine.init thr m) ss) ∧
    (∀ (sqrt : ℚ → ℚ) (st : Engine) (e : List ℚ),
      ((find_or_create_speaker sqrt st e).1).calib =
        (observe_similarity st (find_closest sqrt st.profiles e).2).calib) := by
  refine ⟨?_, ?_, ?_⟩
  · simpa using calibSpec_fold thr ss [] (Engine.init thr m) (calibSpec_init thr m)
  · intro h ss2
    exact observe_foldl_calibrated _ ss2 h
  · intro sqrt st e
    simp only [find_or_create_speaker, create_new_speaker]
    split_ifs <;> rfl

/-- C2 witness: `C2_calibration_runs_once` at the concrete session `[1]`,
discharging the pre-calibration hypothesis. -/
theorem C2_calibration_runs_once_witness :
    (List.foldl observe_similarity (Engine.init 0.30 5) [1]).is_calibrated = false ∧
    (List.foldl observe_similarity (Engine.init 0.30 5) [1]).calibration_similarities =
      ([1] : List ℚ).filter (fun s => decide (0 < s)) ∧
    (List.foldl observe_similarity (Engine.init 0.30 5) [1]).calibration_similarities.length <
      calibration_segments := by
  have h := (C2_calibration_runs_once 0.30 5 [1]).1
  have hf : (List.foldl observe_similarity (Engine.init 0.30 5) [1]).is_calibrated = false := by
    decide
  exact ⟨hf, (h.2.2.1 hf).1, (h.2.2.1 hf).2.1⟩

/-- The closest-speaker fold keeps a nonnegative best similarity, and it
holds a speaker exactly when that similarity is strictly positive. -/
theorem closest_fold_spec (sqrt : ℚ → ℚ) (e : List ℚ) : ∀ (ps : List Profile)
    (acc : Option String × ℚ), 0 ≤ acc.2 → (acc.1.isSome = true ↔ 0 < acc.2) →
    0 ≤ (ps.foldl (closest_step sqrt e) acc).2 ∧
      ((ps.foldl (closest_step sqrt e) acc).1.isSome = true ↔
        0 < (ps.foldl (closest_step sqrt e) acc).2)
  | [], acc, h0, hiff => ⟨h0, hiff⟩
  | p :: ps, acc, h0, hiff => by
    rw [List.foldl_cons]
    by_cases hgt : (cosine_similarity sqrt e p.centroid).value > acc.2
    · have hstep : closest_step sqrt e acc p =
          (some p.sid, (cosine_similarity sqrt e p.centroid).value) := by
        unfold closest_step
        rw [if_pos hgt]
      rw [hstep]
      have hpos : 0 < (cosine_similarity sqrt e p.centroid).value :=
        lt_of_le_of_lt h0 hgt
      exact closest_fold_spec sqrt e ps _ (le_of_lt hpos) (iff_of_true rfl hpos)
    · have hstep : closest_step sqrt e acc p = acc := by
        unfold closest_step
        rw [if_neg hgt]
      rw [hstep]
      exact closest_fold_spec sqrt e ps acc h0 hiff

/-- Specification of `find_closest`: the best similarity is nonnegative and
a best speaker exists exactly when it is strictly positive. -/
theorem find_closest_spec (sqrt : ℚ → ℚ) (ps : List Profile) (e : List ℚ) :
    0 ≤ (find_closest sqrt ps e).2 ∧
      ((find_closest sqrt ps e).1.isSome = true ↔ 0 < (find_closest sqrt ps e).2) :=
  closest_fold_spec sqrt e ps (none, 0) le_rfl (by simp)

/-- The calibration hook touches none of the clustering fields. -/
theorem observe_preserves_fields (st : Engine) (s : ℚ) :
    (observe_similarity st s).profiles = st.profiles ∧
    (observe_similarity st s).max_speakers = st.max_speakers ∧
    (observe_similarity st s).next_speaker_id = st.next_speaker_id ∧
    (observe_similarity st s).reidentification_threshold =
      st.reidentification_threshold := by
  simp only [observe_similarity, calibrate_thresholds]
  split_ifs <;> exact ⟨rfl, rfl, rfl, rfl⟩

/-- C3 (amended): whenever the number of existing profiles equals
`max_speakers`, the incoming embedding is forced-assigned to the
best-matching profile `p*` when one exists (best similarity `s* > 0`), and
`p*`'s centroid is updated; when no profile matches (`s* ≤ 0`, possible
only when every similarity is non-positive) the segment is labelled
`SPEAKER_<next_speaker_id - 1>` and no centroid is updated.  The reported
confidence equals `s*` when `s* > 0` and `0.5` otherwise — not
`max(s*, 0.5)` as originally claimed. -/
theorem C3_max_speakers_forced_assignment (sqrt : ℚ → ℚ) (st : Engine)
    (e : List ℚ) (hfull : st.profiles.length = st.max_speakers) :
    ((find_or_create_speaker sqrt st e).2.2 =
      if 0 < (find_closest sqrt st.profiles e).2
      then (find_closest sqrt st.profiles e).2 else 0.5) ∧
    (∀ sid : String, (find_closest sqrt st.profiles e).1 = some sid →
      (find_or_create_speaker sqrt st e).2.1 = sid ∧
      (find_or_create_speaker sqrt st e).1.profiles =
        update_profile_in st.profiles sid e) ∧
    ((find_closest sqrt st.profiles e).1 = none →
      (find_or_create_speaker sqrt st e).2.1 =
        "SPEAKER_" ++ toString ((st.next_speaker_id : ℤ) - 1) ∧
      (find_or_create_speaker sqrt st e).1.profiles = st.profiles) := by
  obtain ⟨hpres, hmax, hnext, hreid⟩ :=
    observe_preserves_fields st (find_closest sqrt st.profiles e).2
  have hnotlt : ¬ (observe_similarity st (find_closest sqrt st.profiles e).2).profiles.length <
      (observe_similarity st (find_closest sqrt st.profiles e).2).max_speakers := by
    rw [hpres, hmax, hfull]
    exact lt_irrefl _
  obtain ⟨hnn, hiff⟩ := find_closest_spec sqrt st.profiles e
  rcases hb : (find_closest sqrt st.profiles e).1 with _ | sid
  · -- no best speaker: best similarity is zero
    have hz : (find_closest sqrt st.profiles e).2 = 0 := by
      by_contra hne
      have hpos : 0 < (find_closest sqrt st.profiles e).2 :=
        lt_of_le_of_ne hnn (Ne.symm hne)
      have := hiff.mpr hpos
      rw [hb] at this
      simp at this
    rw [hz] at hnotlt hpres hnext
    simp only [find_or_create_speaker]
    rw [hb, hz]
    rw [if_neg (by simp), if_neg (by simp), if_neg hnotlt]
    refine ⟨?_, ?_, ?_⟩
    · rw [if_neg (lt_irrefl (0 : ℚ))]
    · intro sid hsid
      exact absurd hsid (by simp)
    · intro _
      refine ⟨by rw [hnext], ?_⟩
      simpa using hpres
  · -- a best speaker exists: best similarity is positive
    have hpos : 0 < (find_closest sqrt st.profiles e).2 := by
      apply hiff.mp
      rw [hb]
      rfl
    simp only [find_or_create_speaker]
    rw [hb]
    have hgoal1 : ∀ r : Engine × String × ℚ, r.2.1 = sid →
        r.1.profiles = update_profile_in st.profiles sid e →
        r.2.2 = (find_closest sqrt st.profiles e).2 →
        (r.2.2 = if 0 < (find_closest sqrt st.profiles e).2
          then (find_closest sqrt st.profiles e).2 else 0.5) ∧
        (∀ sid' : String, some sid = some sid' → r.2.1 = sid' ∧
          r.1.profiles = update_profile_in st.profiles sid' e) ∧
        (some sid = none → r.2.1 = "SPEAKER_" ++ toString ((st.next_speaker_id : ℤ) - 1) ∧
          r.1.profiles = st.profiles) := by
      intro r h1 h2 h3
      refine ⟨by rw [h3, if_pos hpos], ?_, ?_⟩
      · intro sid' hsid'
        obtain rfl : sid = sid' := Option.some.inj hsid'
        exact ⟨h1, h2⟩
      · intro hcontra
        exact absurd hcontra (by simp)
    by_cases h1 : (find_closest sqrt st.profiles e).2 ≥
        (observe_similarity st (find_closest sqrt st.profiles e).2).reidentification_threshold
    · rw [if_pos ⟨h1, rfl⟩]
      exact hgoal1 _ rfl (by rw [hpres]; rfl) rfl
    · rw [if_neg (fun hand => h1 hand.1)]
      by_cases h2 : (find_closest sqrt st.profiles e).2 ≥
          (observe_similarity st (find_closest sqrt st.profiles e).2).effective_similarity_threshold
      · rw [if_pos ⟨rfl, h2⟩]
        exact hgoal1 _ rfl (by rw [hpres]; rfl) rfl
      · rw [if_neg (fun hand => h2 hand.2), if_neg hnotlt]
        refine (hgoal1 _ rfl ?_ (if_pos hpos))
        simpa using congrArg (fun l => update_profile_in l sid e) hpres

/-- C3 witness: `C3_max_speakers_forced_assignment` at the concrete
at-capacity engine `engineC3` and embedding `[4, 5, 20]` (best similarity
5/21 against `SPEAKER_1`), discharging both hypotheses. -/
theorem C3_max_speakers_forced_assignment_witness :
    (find_or_create_speaker sqrtEx engineC3 [4, 5, 20]).2.1 = "SPEAKER_1" ∧
    (find_or_create_speaker sqrtEx engineC3 [4, 5, 20]).1.profiles =
      update_profile_in engineC3.profiles "SPEAKER_1" [4, 5, 20] := by
  have hfc : find_closest sqrtEx engineC3.profiles [4, 5, 20] =
      (some "SPEAKER_1", 5 / 21) := by
    norm_num [find_closest, closest_step, cosine_similarity, dotProd, sqrtEx,
      engineC3, create_profile, List.foldl_cons, List.foldl_nil]
  exact (C3_max_speakers_forced_assignment sqrtEx engineC3 [4, 5, 20] rfl).2.1
    "SPEAKER_1" (by rw [hfc])

/-- C3 counterexample: with `engineC3` at its speaker limit and embedding
`[4, 5, 20]`, the best similarity is `s* = 5/21 ≈ 0.238`, and the decision
tree reports confidence `5/21` — whereas `max(s*, 0.5) = 0.5`.  The claimed
confidence formula `max(s*, 0.5)` is therefore false (the code computes
`best_similarity if best_similarity > 0 else 0.5`). -/
theorem C3_confidence_counterexample :
    engineC3.profiles.length = engineC3.max_speakers ∧
    (find_closest sqrtEx engineC3.profiles [4, 5, 20]).2 = 5 / 21 ∧
    (find_or_create_speaker sqrtEx engineC3 [4, 5, 20]).2.2 = 5 / 21 ∧
    (5 : ℚ) / 21 ≠ max (5 / 21) 0.5 := by
  have hfc : find_closest sqrtEx engineC3.profiles [4, 5, 20] =
      (some "SPEAKER_1", 5 / 21) := by
    norm_num [find_closest, closest_step, cosine_similarity, dotProd, sqrtEx,
      engineC3, create_profile, List.foldl_cons, List.foldl_nil]
  refine ⟨rfl, by rw [hfc], ?_, ?_⟩
  · have hobs : observe_similarity engineC3 (5 / 21) =
        { engineC3 with calibration_similarities := [5 / 21] } := by
      norm_num [observe_similarity, calibrate_thresholds, engineC3,
        calibration_segments]
    simp only [find_or_create_speaker, hfc]
    rw [hobs]
    norm_num [engineC3, create_profile, reidentification_threshold_value,
      definite_new_speaker_threshold, new_speaker_threshold,
      minimum_match_threshold]
  · have hmax : max ((5 : ℚ) / 21) 0.5 = 0.5 := max_eq_right (by norm_num)
    rw [hmax]
    norm_num

/-- C5 counterexample: a calibrated engine keeps its full calibrator state
across `reset()` — `is_calibrated` stays true (a fresh session starts
false), the eight collected samples stay collected, and the boosted
effective threshold stays boosted — so calibration cannot run again in the
new session (the hook is the identity on the reset state).  This refutes
the claim that `reset()` restores the calibrator to its initial values. -/
theorem C5_reset_keeps_calibration_counterexample :
    calibratedEngine.is_calibrated = true ∧
    calibratedEngine.reset.is_calibrated = true ∧
    calibratedEngine.reset.calibration_similarities.length = calibration_segments ∧
    calibratedEngine.reset.effective_similarity_threshold = 0.55 ∧
    (Engine.init 0.30 5).is_calibrated = false ∧
    (Engine.init 0.30 5).effective_similarity_threshold = 0.30 ∧
    calibratedEngine.reset.effective_similarity_threshold ≠
      (Engine.init 0.30 5).effective_similarity_threshold ∧
    observe_similarity calibratedEngine.reset 0.2 = calibratedEngine.reset := by
  have hcal : calibratedEngine.is_calibrated = true := by
    norm_num [calibratedEngine, List.replicate, observe_similarity,
      calibrate_thresholds, Engine.init, listMin, calibration_segments,
      processed_audio_min_similarity, processed_audio_threshold_boost,
      List.foldl_cons, List.foldl_nil]
  have hlen : calibratedEngine.calibration_similarities.length =
      calibration_segments := by
    norm_num [calibratedEngine, List.replicate, observe_similarity,
      calibrate_thresholds, Engine.init, listMin, calibration_segments,
      processed_audio_min_similarity, processed_audio_threshold_boost,
      List.foldl_cons, List.foldl_nil]
  have heff : calibratedEngine.effective_similarity_threshold = 0.55 := by
    norm_num [calibratedEngine, List.replicate, observe_similarity,
      calibrate_thresholds, Engine.init, listMin, calibration_segments,
      processed_audio_min_similarity, processed_audio_threshold_boost,
      List.foldl_cons, List.foldl_nil]
  refine ⟨hcal, hcal, hlen, heff, rfl, rfl, ?_, ?_⟩
  · rw [show calibratedEngine.reset.effective_similarity_threshold =
        calibratedEngine.effective_similarity_threshold from rfl, heff]
    norm_num [Engine.init]
  · exact observe_calibrated _ _ hcal

/-- C5 (amended): `reset()` clears the profile dicts (centroids, counts,
histories, stability flags), the next speaker id, the current speaker, the
audio buffer, the processed-sample counter and the segment list — but it
leaves the calibrator state (`calibration_similarities`, `is_calibrated`,
`is_processed_audio` and the four effective thresholds) completely
untouched, so calibration does not run again after `reset()`. -/
theorem C5_reset_state (st : Engine) :
    (st.reset.profiles = [] ∧ st.reset.next_speaker_id = 0 ∧
     st.reset.current_speaker = none ∧ st.reset.audio_buffer = [] ∧
     st.reset.processed_samples = 0 ∧ st.reset.all_segments = []) ∧
    (st.reset.calibration_similarities = st.calibration_similarities ∧
     st.reset.is_calibrated = st.is_calibrated ∧
     st.reset.is_processed_audio = st.is_processed_audio ∧
     st.reset.effective_similarity_threshold = st.effective_similarity_threshold ∧
     st.reset.effective_definite_new_threshold = st.effective_definite_new_threshold ∧
     st.reset.effective_new_speaker_threshold = st.effective_new_speaker_threshold ∧
     st.reset.effective_minimum_match_threshold = st.effective_minimum_match_threshold ∧
     st.reset.similarity_threshold = st.similarity_threshold ∧
     st.reset.reidentification_threshold = st.reidentification_threshold ∧
     st.reset.max_speakers = st.max_speakers) :=
  ⟨⟨rfl, rfl, rfl, rfl, rfl, rfl⟩, ⟨rfl, rfl, rfl, rfl, rfl, rfl, rfl, rfl, rfl, rfl⟩⟩

/-- Overlaps are clamped at zero. -/
theorem overlap_of_nonneg (a b : ℚ) (seg : SpeakerSeg) : 0 ≤ overlap_of a b seg :=
  le_max_left 0 _

/-- A non-positive overlap is exactly zero. -/
theorem overlap_of_eq_zero (a b : ℚ) (seg : SpeakerSeg)
    (h : ¬ 0 < overlap_of a b seg) : overlap_of a b seg = 0 :=
  le_antisymm (not_lt.mp h) (overlap_of_nonneg a b seg)

/-- A positive overlap forces a positive transcript duration. -/
theorem lt_of_overlap_pos (a b : ℚ) (seg : SpeakerSeg)
    (h : 0 < overlap_of a b seg) : a < b := by
  have hd : 0 < min b seg.stop - max a seg.start := by
    rcases lt_max_iff.mp h with h0 | h1
    · exact absurd h0 (lt_irrefl 0)
    · exact h1
  calc a ≤ max a seg.start := le_max_left _ _
    _ < min b seg.stop := sub_pos.mp hd
    _ ≤ b := min_le_left _ _

/-- Effect of one accumulation on the association-list lookup. -/
theorem assocVal_bump : ∀ (l : List (String × ℚ)) (sp sp' : String) (v : ℚ),
    assocVal (bumpAssoc l sp v) sp' =
      if sp = sp' then assocVal l sp' + v else assocVal l sp'
  | [], sp, sp', v => by
    simp only [bumpAssoc, assocVal]
    split_ifs <;> simp
  | (k, x) :: t, sp, sp', v => by
    by_cases hk : k = sp
    · subst hk
      simp only [bumpAssoc, if_pos rfl, assocVal]
      by_cases h' : k = sp' <;> simp [h']
    · simp only [bumpAssoc, if_neg hk, assocVal, assocVal_bump t sp sp' v]
      by_cases h' : k = sp'
      · have hsp : ¬ sp = sp' := fun he => hk (h'.trans he.symm)
        simp [h', hsp]
      · simp [h']

/-- Effect of one accumulation on the key list. -/
theorem bump_keys : ∀ (l : List (String × ℚ)) (sp : String) (v : ℚ),
    assocKeys (bumpAssoc l sp v) =
      if sp ∈ assocKeys l then assocKeys l else assocKeys l ++ [sp]
  | [], sp, v => by simp [bumpAssoc, assocKeys]
  | (k, x) :: t, sp, v => by
    have hkeys : assocKeys ((k, x) :: t) = k :: assocKeys t := rfl
    by_cases hk : k = sp
    · subst hk
      simp [bumpAssoc, assocKeys]
    · have ht := bump_keys t sp v
      have hbk : assocKeys (bumpAssoc ((k, x) :: t) sp v) =
          k :: assocKeys (bumpAssoc t sp v) := by
        simp only [bumpAssoc, if_neg hk]
        rfl
      rw [hbk, ht, hkeys]
      by_cases hm : sp ∈ assocKeys t
      · rw [if_pos hm, if_pos (List.mem_cons_of_mem _ hm)]
      · rw [if_neg hm, if_neg (by
          intro hc
          rcases List.mem_cons.mp hc with hc | hc
          · exact hk hc.symm
          · exact hm hc)]
        rfl

/-- Accumulation keeps the keys distinct. -/
theorem bump_keys_nodup (l : List (String × ℚ)) (sp : String) (v : ℚ)
    (h : (assocKeys l).Nodup) : (assocKeys (bumpAssoc l sp v)).Nodup := by
  rw [bump_keys]
  split_ifs with hm
  · exact h
  · rw [List.nodup_append]
    exact ⟨h, List.nodup_singleton sp, by simpa [List.disjoint_singleton] using hm⟩

/-- Accumulation of a positive value keeps every stored value positive. -/
theorem bump_pos : ∀ (l : List (String × ℚ)) (sp : String) (v : ℚ),
    0 < v → (∀ p ∈ l, 0 < p.2) → ∀ p ∈ bumpAssoc l sp v, 0 < p.2
  | [], _, v, hv, _, p, hp => by
    simp only [bumpAssoc, List.mem_singleton] at hp
    rw [hp]; exact hv
  | (k, x) :: t, sp, v, hv, h, p, hp => by
    by_cases hk : k = sp
    · subst hk
      rw [show bumpAssoc ((k, x) :: t) k v = (k, x + v) :: t from by
        simp [bumpAssoc]] at hp
      rcases List.mem_cons.mp hp with hp | hp
      · rw [hp]
        exact add_pos (h (k, x) (List.mem_cons_self _ _)) hv
      · exact h p (List.mem_cons_of_mem _ hp)
    · rw [show bumpAssoc ((k, x) :: t) sp v = (k, x) :: bumpAssoc t sp v from by
        simp [bumpAssoc, hk]] at hp
      rcases List.mem_cons.mp hp with hp | hp
      · rw [hp]
        exact h (k, x) (List.mem_cons_self _ _)
      · exact bump_pos t sp v hv (fun q hq => h q (List.mem_cons_of_mem _ hq)) p hp

/-- Accumulation never empties the list. -/
theorem bumpAssoc_ne_nil : ∀ (l : List (String × ℚ)) (sp : String) (v : ℚ),
    bumpAssoc l sp v ≠ []
  | [], _, _ => by simp [bumpAssoc]
  | (k, x) :: t, sp, v => by
    simp only [bumpAssoc]
    split_ifs <;> simp

/-- An absent key looks up to the default 0. -/
theorem assocVal_of_not_mem : ∀ (l : List (String × ℚ)) (sp : String),
    sp ∉ assocKeys l → assocVal l sp = 0
  | [], _, _ => rfl
  | (k, x) :: t, sp, h => by
    simp only [assocKeys, List.map_cons, List.mem_cons] at h
    push_neg at h
    simp only [assocVal]
    rw [if_neg (Ne.symm h.1)]
    exact assocVal_of_not_mem t sp h.2

/-- With distinct keys, every stored pair is what its key looks up to. -/
theorem assocVal_of_mem : ∀ (l : List (String × ℚ)), (assocKeys l).Nodup →
    ∀ p ∈ l, assocVal l p.1 = p.2
  | [], _, p, hp => absurd hp (List.not_mem_nil p)
  | (k, x) :: t, hnd, p, hp => by
    simp only [assocKeys, List.map_cons, List.nodup_cons] at hnd
    rcases List.mem_cons.mp hp with rfl | hp
    · simp [assocVal]
    · have hk : ¬ k = p.1 := by
        intro he
        exact hnd.1 (he ▸ List.mem_map_of_mem Prod.fst hp)
      simp only [assocVal, if_neg hk]
      exact assocVal_of_mem t hnd.2 p hp

/-- Key membership gives a stored pair. -/
theorem mem_keys_pair (l : List (String × ℚ)) (sp : String)
    (h : sp ∈ assocKeys l) : ∃ x : ℚ, (sp, x) ∈ l := by
  rcases List.mem_map.mp h with ⟨⟨k, x⟩, hm, rfl⟩
  exact ⟨x, hm⟩

/-- Appending one segment adds its overlap to its speaker's total. -/
theorem total_overlap_append (a b : ℚ) (pre : List SpeakerSeg)
    (seg : SpeakerSeg) (sp : String) :
    total_overlap a b (pre ++ [seg]) sp =
      total_overlap a b pre sp +
        (if seg.speaker = sp then overlap_of a b seg else 0) := by
  unfold total_overlap
  rw [List.filter_append, List.map_append, List.sum_append]
  congr 1
  by_cases h : seg.speaker = sp
  · simp [List.filter, h]
  · simp [List.filter, h]

/-- Totals are nonnegative. -/
theorem total_overlap_nonneg (a b : ℚ) (segs : List SpeakerSeg) (sp : String) :
    0 ≤ total_overlap a b segs sp := by
  apply List.sum_nonneg
  intro x hx
  rcases List.mem_map.mp hx with ⟨s, _, rfl⟩
  exact overlap_of_nonneg a b s

/-- A member segment's overlap bounds its speaker's total from below. -/
theorem overlap_le_total (a b : ℚ) (segs : List SpeakerSeg) (seg : SpeakerSeg)
    (hm : seg ∈ segs) :
    overlap_of a b seg ≤ total_overlap a b segs seg.speaker := by
  apply List.single_le_sum
  · intro x hx
    rcases List.mem_map.mp hx with ⟨s, _, rfl⟩
    exact overlap_of_nonneg a b s
  · exact List.mem_map_of_mem _ (List.mem_filter.mpr ⟨hm, by simp⟩)

/-- One accumulation step preserves the overlap invariant. -/
theorem overlapInv_step (a b : ℚ) (pre : List SpeakerSeg)
    (acc : List (String × ℚ)) (seg : SpeakerSeg)
    (h : OverlapInv a b pre acc) :
    OverlapInv a b (pre ++ [seg])
      (if 0 < overlap_of a b seg then
        bumpAssoc acc seg.speaker (overlap_of a b seg) else acc) := by
  obtain ⟨hnd, hval, hpos, hemp⟩ := h
  by_cases hov : 0 < overlap_of a b seg
  · rw [if_pos hov]
    refine ⟨bump_keys_nodup _ _ _ hnd, ?_, bump_pos _ _ _ hov hpos, ?_⟩
    · intro sp
      rw [assocVal_bump, total_overlap_append, hval]
      by_cases hsp : seg.speaker = sp
      · rw [if_pos hsp, if_pos hsp]
      · rw [if_neg hsp, if_neg hsp, add_zero]
    · intro habs
      exact absurd habs (bumpAssoc_ne_nil _ _ _)
  · rw [if_neg hov]
    refine ⟨hnd, ?_, hpos, ?_⟩
    · intro sp
      rw [total_overlap_append, hval, overlap_of_eq_zero a b seg hov]
      simp
    · intro hacc s hs
      rcases List.mem_append.mp hs with hs | hs
      · exact hemp hacc s hs
      · rcases List.mem_singleton.mp hs with rfl
        exact hov

/-- The accumulation fold preserves the overlap invariant. -/
theorem overlapInv_fold (a b : ℚ) : ∀ (segs pre : List SpeakerSeg)
    (acc : List (String × ℚ)), OverlapInv a b pre acc →
    OverlapInv a b (pre ++ segs)
      (segs.foldl (fun acc seg =>
        if 0 < overlap_of a b seg then
          bumpAssoc acc seg.speaker (overlap_of a b seg) else acc) acc)
  | [], pre, acc, h => by simpa using h
  | seg :: rest, pre, acc, h => by
    have hstep := overlapInv_step a b pre acc seg h
    have hrec := overlapInv_fold a b rest (pre ++ [seg]) _ hstep
    simpa [List.append_assoc] using hrec

/-- The computed overlap table satisfies the invariant for the whole list. -/
theorem speaker_overlaps_inv (a b : ℚ) (segs : List SpeakerSeg) :
    OverlapInv a b segs (speaker_overlaps a b segs) := by
  have h := overlapInv_fold a b segs [] []
    ⟨List.nodup_nil, fun sp => rfl, by simp, by simp⟩
  simpa using h

/-- Without positive overlaps the overlap table is empty. -/
theorem speaker_overlaps_eq_nil (a b : ℚ) : ∀ (segs : List SpeakerSeg),
    (∀ seg ∈ segs, ¬ 0 < overlap_of a b seg) → speaker_overlaps a b segs = []
  | [], _ => rfl
  | seg :: rest, h => by
    show List.foldl _ _ (seg :: rest) = []
    rw [List.foldl_cons, if_neg (h seg (List.mem_cons_self _ _))]
    exact speaker_overlaps_eq_nil a b rest
      (fun s hs => h s (List.mem_cons_of_mem _ hs))

/-- Python `max` over a nonempty list: the fold result is a member whose
value is maximal. -/
theorem max_fold_spec : ∀ (t : List (String × ℚ)) (h : String × ℚ),
    (List.foldl (fun best x => if best.2 < x.2 then x else best) h t) ∈ h :: t ∧
    h.2 ≤ (List.foldl (fun best x => if best.2 < x.2 then x else best) h t).2 ∧
    ∀ p ∈ t, p.2 ≤ (List.foldl (fun best x => if best.2 < x.2 then x else best) h t).2
  | [], h => ⟨List.mem_cons_self _ _, le_refl _, by simp⟩
  | x :: t, h => by
    rw [List.foldl_cons]
    by_cases hx : h.2 < x.2
    · rw [if_pos hx]
      obtain ⟨hm, hle, hall⟩ := max_fold_spec t x
      refine ⟨List.mem_cons_of_mem _ hm, le_trans (le_of_lt hx) hle, ?_⟩
      intro p hp
      rcases List.mem_cons.mp hp with rfl | hp
      · exact hle
      · exact hall p hp
    · rw [if_neg hx]
      obtain ⟨hm, hle, hall⟩ := max_fold_spec t h
      refine ⟨?_, hle, ?_⟩
      · rcases List.mem_cons.mp hm with heq | hm
        · rw [heq]
          exact List.mem_cons_self _ _
        · exact List.mem_cons_of_mem _ (List.mem_cons_of_mem _ hm)
      · intro p hp
        rcases List.mem_cons.mp hp with rfl | hp
        · exact le_trans (not_lt.mp hx) hle
        · exact hall p hp

/-- Python `min` with the distance key over a nonempty list: the fold result
is a member whose distance is minimal. -/
theorem nearest_fold_spec (a b : ℚ) : ∀ (t : List SpeakerSeg) (h : SpeakerSeg),
    (List.foldl (fun best x =>
      if segment_distance a b x < segment_distance a b best then x else best) h t) ∈ h :: t ∧
    segment_distance a b (List.foldl (fun best x =>
      if segment_distance a b x < segment_distance a b best then x else best) h t) ≤
      segment_distance a b h ∧
    ∀ s ∈ t, segment_distance a b (List.foldl (fun best x =>
      if segment_distance a b x < segment_distance a b best then x else best) h t) ≤
      segment_distance a b s
  | [], h => ⟨List.mem_cons_self _ _, le_refl _, by simp⟩
  | x :: t, h => by
    rw [List.foldl_cons]
    by_cases hx : segment_distance a b x < segment_distance a b h
    · rw [if_pos hx]
      obtain ⟨hm, hle, hall⟩ := nearest_fold_spec a b t x
      refine ⟨List.mem_cons_of_mem _ hm, le_trans hle (le_of_lt hx), ?_⟩
      intro s hs
      rcases List.mem_cons.mp hs with rfl | hs
      · exact hle
      · exact hall s hs
    · rw [if_neg hx]
      obtain ⟨hm, hle, hall⟩ := nearest_fold_spec a b t h
      refine ⟨?_, hle, ?_⟩
      · rcases List.mem_cons.mp hm with heq | hm
        · rw [heq]
          exact List.mem_cons_self _ _
        · exact List.mem_cons_of_mem _ (List.mem_cons_of_mem _ hm)
      · intro s hs
        rcases List.mem_cons.mp hs with rfl | hs
        · exact le_trans hle (not_lt.mp hx)
        · exact hall s hs

/-- Unfolding of the overlap branch of `assign_speaker_to_transcript`. -/
theorem assign_eq_overlap_case (a b : ℚ) (segs : List SpeakerSeg)
    (hne : ¬ segs = []) (m : String × ℚ)
    (hovne : ¬ speaker_overlaps a b segs = [])
    (hmax : max_by_overlap (speaker_overlaps a b segs) = some m) :
    assign_speaker_to_transcript a b segs =
      (some m.1, min (if 0 < b - a then m.2 / (b - a) else 0) 1) := by
  simp only [assign_speaker_to_transcript]
  rw [if_neg hne, if_neg hovne, hmax]

/-- Unfolding of the nearest-segment branch of
`assign_speaker_to_transcript`. -/
theorem assign_eq_nearest_case (a b : ℚ) (segs : List SpeakerSeg)
    (hne : ¬ segs = []) (n : SpeakerSeg)
    (hovnil : speaker_overlaps a b segs = [])
    (hnear : nearest_segment a b segs = some n) :
    assign_speaker_to_transcript a b segs =
      (if segment_distance a b n ≤ 3 then
        (some n.speaker,
         n.confidence * (1 - segment_distance a b n / 3 * 0.5))
      else (none, 0)) := by
  simp only [assign_speaker_to_transcript]
  rw [if_neg hne, if_pos hovnil, hnear]

/-- C6: for every transcript interval `[a, b]` and nonempty list of recent
speaker segments, `assign_speaker_to_transcript` returns: when some segment
overlaps `[a, b]`, a speaker whose accumulated overlap total is maximal,
with confidence `min(total / (b - a), 1)` (the duration is then provably
positive); otherwise, the segment with minimal boundary distance decides —
within 3 seconds its speaker is returned with confidence
`seg.confidence * (1 - distance/3 * 0.5)`, and beyond 3 seconds the result
is `(none, 0)`. -/
theorem C6_overlap_and_nearest_assignment (a b : ℚ) (segs : List SpeakerSeg)
    (hne : segs ≠ []) :
    ((∃ seg ∈ segs, 0 < overlap_of a b seg) →
      ∃ sp : String,
        assign_speaker_to_transcript a b segs =
          (some sp, min (total_overlap a b segs sp / (b - a)) 1) ∧
        0 < total_overlap a b segs sp ∧ a < b ∧
        ∀ sp' : String, total_overlap a b segs sp' ≤ total_overlap a b segs sp) ∧
    ((∀ seg ∈ segs, ¬ 0 < overlap_of a b seg) →
      ∃ nearest ∈ segs,
        (∀ seg ∈ segs, segment_distance a b nearest ≤ segment_distance a b seg) ∧
        (segment_distance a b nearest ≤ 3 →
          assign_speaker_to_transcript a b segs =
            (some nearest.speaker,
             nearest.confidence * (1 - segment_distance a b nearest / 3 * 0.5))) ∧
        (3 < segment_distance a b nearest →
          assign_speaker_to_transcript a b segs = (none, 0))) := by
  obtain ⟨hnd, hval, hpos, hemp⟩ := speaker_overlaps_inv a b segs
  constructor
  · rintro ⟨seg0, hm0, hov0⟩
    have hab : a < b := lt_of_overlap_pos a b seg0 hov0
    have hovne : ¬ speaker_overlaps a b segs = [] := by
      intro he
      exact (hemp he seg0 hm0) hov0
    obtain ⟨hd, tl, hovseq⟩ := List.exists_cons_of_ne_nil hovne
    set m := tl.foldl (fun best x => if best.2 < x.2 then x else best) hd with hm
    obtain ⟨hmem0, _, hall0⟩ := max_fold_spec tl hd
    have hmem : m ∈ speaker_overlaps a b segs := by
      rw [hovseq]; exact hmem0
    have hall : ∀ p ∈ speaker_overlaps a b segs, p.2 ≤ m.2 := by
      intro p hp
      rw [hovseq] at hp
      rcases List.mem_cons.mp hp with rfl | hp
      · exact (max_fold_spec tl p).2.1
      · exact hall0 p hp
    have hmax : max_by_overlap (speaker_overlaps a b segs) = some m := by
      rw [hovseq]; rfl
    have htot : total_overlap a b segs m.1 = m.2 := by
      rw [← hval m.1]
      exact assocVal_of_mem _ hnd m hmem
    have hmpos : 0 < m.2 := hpos m hmem
    refine ⟨m.1, ?_, htot ▸ hmpos, hab, ?_⟩
    · rw [assign_eq_overlap_case a b segs hne m hovne hmax,
        if_pos (sub_pos.mpr hab), htot]
    · intro sp'
      rw [htot, ← hval sp']
      by_cases hk : sp' ∈ assocKeys (speaker_overlaps a b segs)
      · obtain ⟨x, hx⟩ := mem_keys_pair _ sp' hk
        rw [show assocVal (speaker_overlaps a b segs) sp' = x from
          assocVal_of_mem _ hnd (sp', x) hx]
        exact hall (sp', x) hx
      · rw [assocVal_of_not_mem _ sp' hk]
        exact le_of_lt hmpos
  · intro hno
    have hovnil : speaker_overlaps a b segs = [] :=
      speaker_overlaps_eq_nil a b segs hno
    obtain ⟨h0, t0, rfl⟩ := List.exists_cons_of_ne_nil hne
    set n := t0.foldl (fun best x =>
      if segment_distance a b x < segment_distance a b best then x else best) h0 with hn
    obtain ⟨hnmem, hnle, hnall⟩ := nearest_fold_spec a b t0 h0
    have hnear : nearest_segment a b (h0 :: t0) = some n := rfl
    have hbound : ∀ seg ∈ h0 :: t0,
        segment_distance a b n ≤ segment_distance a b seg := by
      intro s hs
      rcases List.mem_cons.mp hs with rfl | hs
      · exact hnle
      · exact hnall s hs
    refine ⟨n, hnmem, hbound, ?_, ?_⟩
    · intro hle
      rw [assign_eq_nearest_case a b (h0 :: t0) hne n hovnil hnear, if_pos hle]
    · intro hgt
      rw [assign_eq_nearest_case a b (h0 :: t0) hne n hovnil hnear,
        if_neg (not_le.mpr hgt)]

/-- C6 witness: `C6_overlap_and_nearest_assignment` applied on both branches
at concrete inputs — an overlapping segment (`[0, 2]` against a segment
`[1, 3]` of `Speaker_0`) and a disjoint-but-near segment (`[0, 1]` against a
segment `[2, 3]`, distance 1). -/
theorem C6_overlap_and_nearest_assignment_witness :
    (∃ sp : String,
      assign_speaker_to_transcript 0 2 [⟨"Speaker_0", 1, 3, 1⟩] =
        (some sp, min (total_overlap 0 2 [⟨"Speaker_0", 1, 3, 1⟩] sp / (2 - 0)) 1) ∧
      0 < total_overlap 0 2 [⟨"Speaker_0", 1, 3, 1⟩] sp ∧ (0 : ℚ) < 2 ∧
      ∀ sp' : String, total_overlap 0 2 [⟨"Speaker_0", 1, 3, 1⟩] sp' ≤
        total_overlap 0 2 [⟨"Speaker_0", 1, 3, 1⟩] sp) ∧
    (∃ nearest ∈ [(⟨"Speaker_0", 2, 3, 1⟩ : SpeakerSeg)],
      (∀ seg ∈ [(⟨"Speaker_0", 2, 3, 1⟩ : SpeakerSeg)],
        segment_distance 0 1 nearest ≤ segment_distance 0 1 seg) ∧
      (segment_distance 0 1 nearest ≤ 3 →
        assign_speaker_to_transcript 0 1 [⟨"Speaker_0", 2, 3, 1⟩] =
          (some nearest.speaker,
           nearest.confidence * (1 - segment_distance 0 1 nearest / 3 * 0.5))) ∧
      (3 < segment_distance 0 1 nearest →
        assign_speaker_to_transcript 0 1 [⟨"Speaker_0", 2, 3, 1⟩] = (none, 0))) := by
  constructor
  · exact (C6_overlap_and_nearest_assignment 0 2 [⟨"Speaker_0", 1, 3, 1⟩]
      (by simp)).1 ⟨⟨"Speaker_0", 1, 3, 1⟩, by simp, by norm_num [overlap_of]⟩
  · exact (C6_overlap_and_nearest_assignment 0 1 [⟨"Speaker_0", 2, 3, 1⟩]
      (by simp)).2 (by
        intro seg hs
        rcases List.mem_singleton.mp hs with rfl
        norm_num [overlap_of])

/-- The initial health state satisfies the reachability invariant. -/
theorem healthInv_init : HealthInv HealthState.init := by
  intro _
  norm_num [HealthState.init, diarization_failure_threshold]

/-- Recording a failure preserves the reachability invariant. -/
theorem healthInv_failure (st : HealthState) (h : HealthInv st) :
    HealthInv (record_diarization_failure st).1 := by
  simp only [record_diarization_failure]
  split_ifs with hc
  · intro habs
    simp at habs
  · intro hfl
    have hle := h hfl
    have hnot : ¬ st.consecutive_failures + 1 ≥ diarization_failure_threshold :=
      fun hge => hc ⟨hge, hfl⟩
    show st.consecutive_failures + 1 + 1 ≤ diarization_failure_threshold
    omega

/-- Recording a success preserves the reachability invariant. -/
theorem healthInv_success (st : HealthState) :
    HealthInv (record_diarization_success st).1 := by
  simp only [record_diarization_success]
  split_ifs with hc
  · intro _
    norm_num [diarization_failure_threshold]
  · intro _
    norm_num [diarization_failure_threshold]

/-- Every state reached from a state satisfying the invariant satisfies it. -/
theorem healthInv_run : ∀ (evs : List HealthEvent) (st : HealthState),
    HealthInv st → HealthInv (health_run st evs).1
  | [], _, h => h
  | .failure :: rest, st, h =>
    healthInv_run rest _ (healthInv_failure st h)
  | .success :: rest, st, _ =>
    healthInv_run rest _ (healthInv_success st)

/-- C7 (amended): a `diarization_health_warning` record is emitted exactly
when the consecutive-failure counter reaches the threshold 3 with no
warning outstanding (the reachability invariant makes "reaches" precise),
and it sets the outstanding flag; a `diarization_health_recovery` record is
emitted exactly when a success occurs while a warning is outstanding and
the session-total number of successful segments (after this one) exceeds 5
— the gate is the cumulative `total_segments` counter, not a run of more
than 5 consecutive successes — and it clears the flag.  Each call emits at
most one record. -/
theorem C7_health_warning_recovery (evs : List HealthEvent) :
    HealthInv (health_run HealthState.init evs).1 ∧
    (∀ st : HealthState, HealthInv st →
      (((record_diarization_failure st).2 = [HealthMsg.warning]) ↔
        (st.consecutive_failures + 1 = diarization_failure_threshold ∧
         st.warning_emitted = false)) ∧
      ((record_diarization_failure st).2 = [HealthMsg.warning] →
        (record_diarization_failure st).1.warning_emitted = true) ∧
      ((record_diarization_failure st).2 = [] ∨
        (record_diarization_failure st).2 = [HealthMsg.warning])) ∧
    (∀ st : HealthState,
      (((record_diarization_success st).2 = [HealthMsg.recovery]) ↔
        (st.warning_emitted = true ∧ 5 < st.total_segments + 1)) ∧
      ((record_diarization_success st).2 = [HealthMsg.recovery] →
        (record_diarization_success st).1.warning_emitted = false) ∧
      ((record_diarization_success st).2 = [] ∨
        (record_diarization_success st).2 = [HealthMsg.recovery])) := by
  refine ⟨healthInv_run evs HealthState.init healthInv_init, ?_, ?_⟩
  · intro st h
    simp only [record_diarization_failure]
    split_ifs with hc
    · refine ⟨⟨fun _ => ⟨le_antisymm (h hc.2) hc.1, hc.2⟩, fun _ => rfl⟩,
        fun _ => rfl, Or.inr rfl⟩
    · refine ⟨⟨fun habs => absurd habs (by simp), ?_⟩,
        fun habs => absurd habs (by simp), Or.inl rfl⟩
      rintro ⟨heq, hfl⟩
      exact absurd ⟨ge_of_eq heq, hfl⟩ hc
  · intro st
    simp only [record_diarization_success]
    split_ifs with hc
    · exact ⟨⟨fun _ => ⟨hc.1, hc.2.2⟩, fun _ => rfl⟩, fun _ => rfl, Or.inr rfl⟩
    · refine ⟨⟨fun habs => absurd habs (by simp), ?_⟩,
        fun habs => absurd habs (by simp), Or.inl rfl⟩
      rintro ⟨hfl, htot⟩
      exact absurd ⟨hfl, trivial, htot⟩ hc

/-- C7 witness: `C7_health_warning_recovery` applied at concrete states —
a third consecutive failure with no warning outstanding emits the warning,
and a success with a warning outstanding and five earlier segments emits
the recovery. -/
theorem C7_health_warning_recovery_witness :
    (record_diarization_failure ⟨2, 4, 0, false⟩).2 = [HealthMsg.warning] ∧
    (record_diarization_success ⟨0, 5, 5, true⟩).2 = [HealthMsg.recovery] :=
  ⟨(((C7_health_warning_recovery []).2.1 ⟨2, 4, 0, false⟩
      (by intro _; decide)).1).mpr (by decide),
   (((C7_health_warning_recovery []).2.2 ⟨0, 5, 5, true⟩).1).mpr (by decide)⟩

/-- C7 counterexample: after six successful alignments, three consecutive
failures emit the warning; then a single success immediately emits the
recovery, because the gate `total_segments > 5` counts session-total
successes (now 7), not a run of more than 5 consecutive successes after
the warning.  Dropping that one success shows the recovery is caused by
it alone. -/
theorem C7_recovery_counterexample :
    (health_run HealthState.init
      [.success, .success, .success, .success, .success, .success,
       .failure, .failure, .failure, .success]).2 =
      [HealthMsg.warning, HealthMsg.recovery] ∧
    (health_run HealthState.init
      [.success, .success, .success, .success, .success, .success,
       .failure, .failure, .failure]).2 = [HealthMsg.warning] := by
  constructor <;> decide

/-- Truncation of a natural number cast is that number. -/
theorem ratTrunc_natCast (n : ℕ) : ratTrunc (n : ℚ) = n := by
  unfold ratTrunc
  rw [Rat.num_natCast, Rat.den_natCast, Nat.cast_one]
  exact Int.tdiv_one (n : ℤ)

/-- On nonnegative rationals, truncation toward zero is the floor. -/
theorem ratTrunc_eq_floor (q : ℚ) (h : 0 ≤ q) : ratTrunc q = ⌊q⌋ := by
  unfold ratTrunc
  rw [Rat.floor_def]
  exact Int.tdiv_eq_ediv (Rat.num_nonneg.mpr h) (Int.natCast_nonneg _)

/-- Stream decomposition of the buffering loop: at every point, the
concatenation of the popped chunks followed by the current buffer equals
the initial buffer followed by all input bytes (so consecutive chunks
cover disjoint, contiguous byte ranges of the stream, in order, with no
overlap), and every popped chunk holds exactly `chunk_bytes` bytes. -/
theorem run_ops_spec : ∀ (ops : List TOp) (t : Transcriber),
    (run_ops t ops).2.flatten ++ (run_ops t ops).1.audio_buffer =
      t.audio_buffer ++ ops_input ops ∧
    (∀ c ∈ (run_ops t ops).2, c.length = t.chunk_bytes) ∧
    (run_ops t ops).1.chunk_bytes = t.chunk_bytes
  | [], t => ⟨by simp [run_ops, ops_input], by simp [run_ops], rfl⟩
  | .add data :: rest, t => by
    obtain ⟨h1, h2, h3⟩ := run_ops_spec rest (add_audio t data)
    refine ⟨?_, h2, h3⟩
    show (run_ops (add_audio t data) rest).2.flatten ++
        (run_ops (add_audio t data) rest).1.audio_buffer =
      t.audio_buffer ++ ops_input (TOp.add data :: rest)
    rw [h1]
    show (t.audio_buffer ++ data) ++ ops_input rest =
      t.audio_buffer ++ (data ++ ops_input rest)
    rw [List.append_assoc]
  | .drain :: rest, t => by
    by_cases hlen : t.audio_buffer.length < t.chunk_bytes
    · have hpb : process_buffer t = (t, none) := by
        unfold process_buffer
        rw [if_pos hlen]
      obtain ⟨h1, h2, h3⟩ := run_ops_spec rest t
      simp only [run_ops, hpb]
      exact ⟨by simpa [ops_input] using h1, fun c hc => h2 c hc, h3⟩
    · have hpb : process_buffer t =
          ({ t with audio_buffer := t.audio_buffer.drop t.chunk_bytes },
           some (t.audio_buffer.take t.chunk_bytes)) := by
        unfold process_buffer
        rw [if_neg hlen]
      obtain ⟨h1, h2, h3⟩ := run_ops_spec rest
        { t with audio_buffer := t.audio_buffer.drop t.chunk_bytes }
      simp only [run_ops, hpb]
      refine ⟨?_, ?_, h3⟩
      · show (t.audio_buffer.take t.chunk_bytes ::
            (run_ops { t with audio_buffer := t.audio_buffer.drop t.chunk_bytes }
              rest).2).flatten ++
            (run_ops { t with audio_buffer := t.audio_buffer.drop t.chunk_bytes }
              rest).1.audio_buffer =
          t.audio_buffer ++ ops_input (TOp.drain :: rest)
        rw [List.flatten_cons, List.append_assoc, h1]
        show t.audio_buffer.take t.chunk_bytes ++
            (t.audio_buffer.drop t.chunk_bytes ++ ops_input rest) =
          t.audio_buffer ++ ops_input (TOp.drain :: rest)
        rw [← List.append_assoc, List.take_append_drop]
        rfl
      · show ∀ c ∈ (t.audio_buffer.take t.chunk_bytes ::
            (run_ops { t with audio_buffer := t.audio_buffer.drop t.chunk_bytes }
              rest).2), c.length = t.chunk_bytes
        intro c hc
        rcases List.mem_cons.mp hc with hc | hc
        · rw [hc, List.length_take]
          exact Nat.min_eq_left (not_lt.mp hlen)
        · exact h2 c hc

/-- C8: `process_buffer` pops exactly one chunk of exactly `chunk_bytes`
bytes from the front of the buffer when at least that many bytes are
buffered, and returns nothing (leaving the buffer untouched) otherwise;
`chunk_bytes` equals `chunk_duration * sample_rate * bytes_per_frame`
whenever that product is a whole number of bytes; over any sequence of
reads and drains the popped chunks are disjoint, contiguous,
`chunk_bytes`-sized slices of the input stream in order; and at end of
stream `process_remaining` hands the buffered tail to transcription if and
only if it holds at least one second of audio, returning nothing
otherwise. -/
theorem C8_chunk_buffering (t : Transcriber) :
    (t.chunk_bytes ≤ t.audio_buffer.length →
      process_buffer t =
        ({ t with audio_buffer := t.audio_buffer.drop t.chunk_bytes },
         some (t.audio_buffer.take t.chunk_bytes)) ∧
      (t.audio_buffer.take t.chunk_bytes).length = t.chunk_bytes) ∧
    (t.audio_buffer.length < t.chunk_bytes →
      process_buffer t = (t, none)) ∧
    (∀ (sr ch bd : ℕ) (d : ℚ) (n : ℕ),
      d * (sr : ℚ) * ((bd / 8 * ch : ℕ) : ℚ) = (n : ℚ) →
      (Transcriber.init sr ch bd d).chunk_bytes = n) ∧
    (∀ ops : List TOp,
      (run_ops t ops).2.flatten ++ (run_ops t ops).1.audio_buffer =
        t.audio_buffer ++ ops_input ops ∧
      ∀ c ∈ (run_ops t ops).2, c.length = t.chunk_bytes) ∧
    (t.bytes_per_frame * t.sample_rate ≤ t.audio_buffer.length →
      process_remaining t =
        ({ t with audio_buffer := [] }, some t.audio_buffer)) ∧
    (t.audio_buffer.length < t.bytes_per_frame * t.sample_rate →
      process_remaining t = (t, none)) := by
  refine ⟨?_, ?_, ?_, ?_, ?_, ?_⟩
  · intro hle
    constructor
    · unfold process_buffer
      rw [if_neg (not_lt.mpr hle)]
    · rw [List.length_take]
      exact Nat.min_eq_left hle
  · intro hlt
    unfold process_buffer
    rw [if_pos hlt]
  · intro sr ch bd d n heq
    show (ratTrunc (d * (sr : ℚ) * ((bd / 8 * ch : ℕ) : ℚ))).toNat = n
    rw [heq, ratTrunc_natCast]
    exact Int.toNat_natCast n
  · intro ops
    exact ⟨(run_ops_spec ops t).1, (run_ops_spec ops t).2.1⟩
  · intro hle
    unfold process_remaining
    rw [if_neg (not_lt.mpr hle)]
  · intro hlt
    unfold process_remaining
    rw [if_pos hlt]

/-- C8 witness: `C8_chunk_buffering` at a concrete transcriber
(`chunk_bytes = 2`, one-byte frames at 1 Hz, buffer `[7, 8, 9]`),
discharging each hypothesis, and the default parameters
`16 kHz / 1 channel / 16-bit / 5 s` giving `chunk_bytes = 160000`. -/
theorem C8_chunk_buffering_witness :
    process_buffer ⟨1, 1, 2, 2, [7, 8, 9]⟩ =
      (⟨1, 1, 2, 2, [9]⟩, some [7, 8]) ∧
    (Transcriber.init 16000 1 16 5).chunk_bytes = 160000 ∧
    process_remaining ⟨1, 1, 2, 2, [7, 8, 9]⟩ =
      (⟨1, 1, 2, 2, []⟩, some [7, 8, 9]) := by
  refine ⟨?_, ?_, ?_⟩
  · have h := (C8_chunk_buffering ⟨1, 1, 2, 2, [7, 8, 9]⟩).1 (by norm_num)
    exact h.1
  · exact (C8_chunk_buffering ⟨1, 1, 2, 2, []⟩).2.2.1 16000 1 16 5 160000
      (by norm_num)
  · exact (C8_chunk_buffering ⟨1, 1, 2, 2, [7, 8, 9]⟩).2.2.2.2.1 (by norm_num)

/-- Mapping each element to a related image yields the pointwise relation. -/
theorem forall₂_map_self {α β : Type} (R : α → β → Prop) (f : α → β) :
    ∀ l : List α, (∀ x ∈ l, R x (f x)) → List.Forall₂ R l (l.map f)
  | [], _ => List.Forall₂.nil
  | x :: xs, h =>
    List.Forall₂.cons (h x (List.mem_cons_self _ _))
      (forall₂_map_self R f xs fun y hy => h y (List.mem_cons_of_mem _ hy))

/-- The fallback output of STEP 4 satisfies the per-segment guarantee. -/
theorem fallback_rel (succ : Bool) (recents : List SpeakerSeg)
    (lks : Option String) (lconf : ℚ)
    (assign : TranscriptSeg → Except Unit (Option String × ℚ))
    (seg : TranscriptSeg) :
    Step4Rel succ recents lks lconf assign seg
      ⟨seg, (get_fallback_speaker_for_segment lks lconf seg).1,
        (get_fallback_speaker_for_segment lks lconf seg).2, true⟩ := by
  refine ⟨rfl, fun habs => absurd habs (by simp), fun _ => ⟨?_, ?_⟩⟩
  · intro htr
    unfold get_fallback_speaker_for_segment
    rw [if_pos htr]
    exact ⟨rfl, rfl⟩
  · intro hfl
    unfold get_fallback_speaker_for_segment
    rw [if_neg (by rw [hfl]; simp)]
    exact ⟨rfl, rfl⟩

/-- Each annotated segment satisfies the per-segment guarantee. -/
theorem annotate_segment_spec (succ : Bool) (recents : List SpeakerSeg)
    (lks : Option String) (lconf : ℚ)
    (assign : TranscriptSeg → Except Unit (Option String × ℚ))
    (seg : TranscriptSeg) :
    Step4Rel succ recents lks lconf assign seg
      (annotate_segment succ recents lks lconf assign seg) := by
  unfold annotate_segment
  by_cases hcond : succ = true ∧ recents ≠ []
  · rw [if_pos hcond]
    cases hassign : assign seg with
    | error e =>
      exact fallback_rel succ recents lks lconf assign seg
    | ok pr =>
      obtain ⟨sp, c⟩ := pr
      by_cases htr : strTruthy sp = true
      · simp only [if_pos htr]
        refine ⟨rfl, fun _ => ⟨hcond.1, hcond.2, c, ?_, ?_, rfl⟩,
          fun habs => absurd habs (by simp)⟩
        · cases sp with
          | none => exact absurd htr (by simp [strTruthy])
          | some s => exact hassign
        · cases sp with
          | none => exact absurd htr (by simp [strTruthy])
          | some s =>
            intro hemp
            have hs : s = "" := hemp
            rw [hs] at htr
            simp [strTruthy] at htr
      · simp only [if_neg htr]
        exact fallback_rel succ recents lks lconf assign seg
  · rw [if_neg hcond]
    exact fallback_rel succ recents lks lconf assign seg

/-- C1: when diarization is enabled, STEP 4 of `_process_diarization`
emits every transcript segment with a speaker assignment: the output list
has one annotation per input segment, each preserving the segment; a
non-fallback annotation carries a truthy speaker id returned by
`LiveDiarizer.assign_speaker_to_transcript` (possible only when
diarization succeeded and recent speaker segments exist); any exception or
falsy speaker yields a fallback annotation with `speaker_fallback = true`
carrying the cached last-known speaker (confidence
`max(0.3, cached * 0.5)`) or the synthetic id
`speaker_unknown_<floor(start * 1000)>` (confidence 0; `int()` truncation
equals floor for the nonnegative timestamps).  No failure drops a
segment. -/
theorem C1_no_segment_dropped (succ : Bool) (recents : List SpeakerSeg)
    (lks : Option String) (lconf : ℚ)
    (assign : TranscriptSeg → Except Unit (Option String × ℚ))
    (segments : List TranscriptSeg) :
    (process_diarization_step4 succ recents lks lconf assign segments).length =
      segments.length ∧
    List.Forall₂ (Step4Rel succ recents lks lconf assign) segments
      (process_diarization_step4 succ recents lks lconf assign segments) ∧
    (∀ q : ℚ, 0 ≤ q →
      generate_fallback_speaker_id q =
        "speaker_unknown_" ++ toString ⌊q * 1000⌋) := by
  refine ⟨List.length_map _ _, ?_, ?_⟩
  · exact forall₂_map_self _ _ segments
      (fun seg _ => annotate_segment_spec succ recents lks lconf assign seg)
  · intro q hq
    unfold generate_fallback_speaker_id
    rw [ratTrunc_eq_floor _ (mul_nonneg hq (by norm_num))]

/-- C1 witness: `C1_no_segment_dropped` at one concrete segment with a
failing (exception-raising) alignment oracle and no cached speaker — the
segment is still emitted, flagged as fallback, with the synthetic
timestamp id and confidence 0. -/
theorem C1_no_segment_dropped_witness :
    (process_diarization_step4 false [] none 0 (fun _ => Except.error ())
      [⟨1, 2, "hi"⟩]).length = 1 ∧
    generate_fallback_speaker_id 1 = "speaker_unknown_" ++ toString ⌊(1 : ℚ) * 1000⌋ ∧
    (annotate_segment false [] none 0 (fun _ => Except.error ())
      ⟨1, 2, "hi"⟩).speaker = generate_fallback_speaker_id 1 ∧
    (annotate_segment false [] none 0 (fun _ => Except.error ())
      ⟨1, 2, "hi"⟩).speaker_confidence = 0 := by
  have h := C1_no_segment_dropped false [] none 0 (fun _ => Except.error ())
    [⟨1, 2, "hi"⟩]
  have hrel : Step4Rel false [] none 0 (fun _ => Except.error ()) ⟨1, 2, "hi"⟩
      (annotate_segment false [] none 0 (fun _ => Except.error ())
        ⟨1, 2, "hi"⟩) := by
    cases h.2.1 with
    | cons hr _ => exact hr
  have hfb := (hrel.2.2 (by decide)).2 (by decide)
  exact ⟨h.1, h.2.2 1 (by norm_num), hfb.1, hfb.2⟩
